import Mathlib

/-!
Shallow embedding of the curved-beam stress engine (Winkler–Bach theory)
from the Beam_Calc repository, together with proofs settling the frozen
claims about it.

Modelling conventions
- JavaScript numbers are modelled by `JSNum`: an exact rational together
  with the special values NaN, +Infinity and -Infinity.  Arithmetic on
  `JSNum` follows the IEEE special-value rules (NaN propagation, signed
  infinities, 0/0 = NaN); finite arithmetic is exact rational arithmetic,
  so rounding and overflow of binary64 are not modelled (no claim depends
  on them).
- A possibly-absent object property (`undefined` in the source) is an
  `Option JSNum` with `none` for absence; reading it with `Number(...)`
  coercion yields NaN, as in JavaScript.
- The solver extracts plain rationals (`JSNum.toQ`) once its own
  finiteness checks have passed, so the width functions `bfn` are modelled
  as `ℚ → ℚ`; on the unreachable paths where the source would produce NaN
  widths (parameters that failed validation never reach the width
  function inside `computeCurvedBeam`), `toQ` returns the junk value 0.
- `Math.sqrt` (used only by the circular profile, whose width values no
  claim inspects) is modelled by the computable rational approximation
  `Rat.sqrt`.
- The `samples` count is modelled as a natural number; the sample loop of
  the source iterates `for (let i = 0; i < samples; i++)`.
-/

/-- JavaScript numbers: exact finite rationals plus NaN and infinities. -/
inductive JSNum where
  | num (q : ℚ)
  | nan
  | posInf
  | negInf
deriving DecidableEq

namespace JSNum

/-- `Number.isFinite`. -/
def isFinite : JSNum → Bool
  | num _ => true
  | _ => false

/-- Rational value of a finite number; junk value 0 otherwise. -/
def toQ : JSNum → ℚ
  | num q => q
  | _ => 0

/-- The JavaScript comparison `x > 0` (false on NaN). -/
def gtZero : JSNum → Bool
  | num q => decide (0 < q)
  | posInf => true
  | _ => false

/-- The JavaScript comparison `x >= 0` (false on NaN). -/
def geZero : JSNum → Bool
  | num q => decide (0 ≤ q)
  | posInf => true
  | _ => false

/-- The JavaScript comparison `x <= 0` (false on NaN). -/
def leZero : JSNum → Bool
  | num q => decide (q ≤ 0)
  | negInf => true
  | _ => false

end JSNum

/-- JavaScript addition with IEEE special-value rules. -/
def jadd : JSNum → JSNum → JSNum
  | .num a, .num b => .num (a + b)
  | .num _, .posInf => .posInf
  | .num _, .negInf => .negInf
  | .posInf, .num _ => .posInf
  | .negInf, .num _ => .negInf
  | .posInf, .posInf => .posInf
  | .negInf, .negInf => .negInf
  | _, _ => .nan

/-- JavaScript negation. -/
def jneg : JSNum → JSNum
  | .num a => .num (-a)
  | .posInf => .negInf
  | .negInf => .posInf
  | .nan => .nan

/-- JavaScript subtraction. -/
def jsub (x y : JSNum) : JSNum := jadd x (jneg y)

/-- JavaScript multiplication with IEEE special-value rules. -/
def jmul : JSNum → JSNum → JSNum
  | .num a, .num b => .num (a * b)
  | .num a, .posInf => if a = 0 then .nan else if 0 < a then .posInf else .negInf
  | .num a, .negInf => if a = 0 then .nan else if 0 < a then .negInf else .posInf
  | .posInf, .num b => if b = 0 then .nan else if 0 < b then .posInf else .negInf
  | .negInf, .num b => if b = 0 then .nan else if 0 < b then .negInf else .posInf
  | .posInf, .posInf => .posInf
  | .posInf, .negInf => .negInf
  | .negInf, .posInf => .negInf
  | .negInf, .negInf => .posInf
  | _, _ => .nan

/-- JavaScript division with IEEE special-value rules (the sign of zero is
not modelled; division of a nonzero finite value by zero yields the
infinity matching the numerator's sign). -/
def jdiv : JSNum → JSNum → JSNum
  | .num a, .num b =>
    if b = 0 then (if a = 0 then .nan else if 0 < a then .posInf else .negInf)
    else .num (a / b)
  | .num _, .posInf => .num 0
  | .num _, .negInf => .num 0
  | .posInf, .num b => if 0 ≤ b then .posInf else .negInf
  | .negInf, .num b => if 0 ≤ b then .negInf else .posInf
  | _, _ => .nan

/-- `Math.min` (NaN-propagating). -/
def jmin : JSNum → JSNum → JSNum
  | .nan, _ => .nan
  | _, .nan => .nan
  | .num a, .num b => .num (min a b)
  | .negInf, _ => .negInf
  | _, .negInf => .negInf
  | .posInf, x => x
  | x, .posInf => x

/-- `Math.max` (NaN-propagating). -/
def jmax : JSNum → JSNum → JSNum
  | .nan, _ => .nan
  | _, .nan => .nan
  | .num a, .num b => .num (max a b)
  | .posInf, _ => .posInf
  | _, .posInf => .posInf
  | .negInf, x => x
  | x, .negInf => x

/-- The JavaScript idiom `x || 0` as applied to a number (NaN and 0 are
falsy and give 0; anything else is returned unchanged). -/
def jsOrZero : JSNum → JSNum
  | .num q => if q = 0 then .num 0 else .num q
  | .nan => .num 0
  | x => x

/-- Reading a possibly-absent property as a number (`Number(p[k])`):
an absent property is `undefined`, which coerces to NaN. -/
def getNum (x : Option JSNum) : JSNum := x.getD .nan

/-- Rational view of a possibly-absent property; 0 outside the finite
range (used only where the pipeline has already checked finiteness). -/
def qv (x : Option JSNum) : ℚ := (getNum x).toQ

/-- The quadrature default `N = 800` used at every call site of
`integrate` inside the solver. -/
def defaultN : ℕ := 800

/-- Composite trapezoidal quadrature of `f` over `[0, t]` with `N` equal
subintervals, transcribed from the source `integrate` helper: weights 1/2
at the endpoints and 1 in the interior, evaluation points clamped to `t`
by `Math.min`, the accumulated sum scaled by the step `dy = t / N` at the
end.  Returns 0 when `t` is not strictly positive. -/
def integrate (t : ℚ) (f : ℚ → ℚ) (N : ℕ) : ℚ :=
  if 0 < t then
    (Finset.sum (Finset.range (N + 1)) fun i =>
      (if i = 0 ∨ i = N then (1 : ℚ) / 2 else 1) * f (min ((i : ℚ) * (t / N)) t)) * (t / N)
  else 0

namespace SectionType

/-- Shape tag `'rectangular'`. -/
def Rectangular : String := "rectangular"

/-- Shape tag `'trapezoidal'`. -/
def Trapezoidal : String := "trapezoidal"

/-- Shape tag `'triangular'`. -/
def Triangular : String := "triangular"

/-- Shape tag `'circular'`. -/
def Circular : String := "circular"

/-- Shape tag `'tsection'`. -/
def TSection : String := "tsection"

end SectionType

/-- Raw per-shape parameters: each field is a possibly-absent JavaScript
number, `none` meaning the property is missing from the object. -/
structure Params where
  b : Option JSNum := none
  t : Option JSNum := none
  bInner : Option JSNum := none
  bOuter : Option JSNum := none
  d : Option JSNum := none
  R1 : Option JSNum := none
  t1 : Option JSNum := none
  b1 : Option JSNum := none
  R2 : Option JSNum := none
  t2 : Option JSNum := none
  b2 : Option JSNum := none
deriving DecidableEq

/-- Keys of the parameter table (`def.key` in `SectionSpecs`). -/
inductive ParamKey where
  | b | t | bInner | bOuter | d | R1 | t1 | b1 | R2 | t2 | b2
deriving DecidableEq

/-- Property lookup `p[def.key]`. -/
def Params.get (p : Params) : ParamKey → Option JSNum
  | .b => p.b
  | .t => p.t
  | .bInner => p.bInner
  | .bOuter => p.bOuter
  | .d => p.d
  | .R1 => p.R1
  | .t1 => p.t1
  | .b1 => p.b1
  | .R2 => p.R2
  | .t2 => p.t2
  | .b2 => p.b2

/-- One row of the per-shape parameter table: key, UI label and the sign
constraint flags (`positive: true` / `nonNegative: true`). -/
structure ParamSpec where
  key : ParamKey
  label : String
  positive : Bool
  nonNegative : Bool
deriving DecidableEq

/-- The `SectionSpecs` table: the declared parameters of each supported
shape, with labels and sign constraints as in the source; `none` for an
unsupported shape identifier. -/
def SectionSpecs (shape : String) : Option (List ParamSpec) :=
  if shape = SectionType.Rectangular then
    some [⟨.b, "Width b (m)", true, false⟩, ⟨.t, "Thickness t (m)", true, false⟩]
  else if shape = SectionType.Trapezoidal then
    some [⟨.bInner, "Inner width b_inner (m)", true, false⟩,
          ⟨.bOuter, "Outer width b_outer (m)", true, false⟩,
          ⟨.t, "Thickness t (m)", true, false⟩]
  else if shape = SectionType.Triangular then
    some [⟨.bInner, "Inner width b_inner (m)", false, true⟩,
          ⟨.bOuter, "Outer width b_outer (m)", false, true⟩,
          ⟨.t, "Thickness t (m)", true, false⟩]
  else if shape = SectionType.Circular then
    some [⟨.d, "Diameter d (m)", true, false⟩]
  else if shape = SectionType.TSection then
    some [⟨.R1, "Rect 1 inner radius R1 (m)", true, false⟩,
          ⟨.t1, "Rect 1 thickness t1 (m)", true, false⟩,
          ⟨.b1, "Rect 1 width b1 (m)", true, false⟩,
          ⟨.R2, "Rect 2 inner radius R2 (m)", true, false⟩,
          ⟨.t2, "Rect 2 thickness t2 (m)", true, false⟩,
          ⟨.b2, "Rect 2 width b2 (m)", true, false⟩]
  else none

/-- Validation outcome: `{ ok: true }` or `{ ok: false, message }`. -/
inductive Valid where
  | ok
  | fail (message : String)
deriving DecidableEq

/-- The validation loop over the declared parameters of a shape: returns
the first violation message, scanning in table order, exactly as the
`for (const def of spec.params)` loop does. -/
def firstViolation (l : List ParamSpec) (p : Params) : Option String :=
  match l with
  | [] => none
  | ps :: rest =>
    let v := getNum (p.get ps.key)
    if ps.positive && !(v.isFinite && v.gtZero) then
      some (ps.label ++ " must be > 0")
    else if ps.nonNegative && !(v.isFinite && v.geZero) then
      some (ps.label ++ " must be ≥ 0")
    else firstViolation rest p

/-- `validateParams` from the source: unsupported shapes fail immediately;
each declared parameter must satisfy its sign constraint; the triangular
shape additionally rejects `bInner` and `bOuter` both `<= 0` (after the
JavaScript `Number(x) || 0` coercion). -/
def validateParams (shape : String) (params : Params) : Valid :=
  match SectionSpecs shape with
  | none => .fail "Unsupported shape"
  | some specs =>
    match firstViolation specs params with
    | some m => .fail m
    | none =>
      if shape = SectionType.Triangular then
        let bi := jsOrZero (getNum params.bInner)
        let bo := jsOrZero (getNum params.bOuter)
        if bi.leZero && bo.leZero then
          .fail "At least one of b_inner or b_outer must be > 0"
        else .ok
      else .ok

/-- A width profile as produced by `makeWidthFn`: the width function, the
thickness, and the absolute radius overrides (NaN models the `undefined`
of the source for shapes that supply none). -/
structure WidthFn where
  bfn : ℚ → ℚ
  t : JSNum
  riOverride : JSNum
  roOverride : JSNum

/-- `makeWidthFn` from the source.  Width functions are modelled over
exact rationals via `qv`; inside `computeCurvedBeam` they are only
evaluated after validation has ensured every declared parameter is a
finite number, where `qv` agrees with the JavaScript value.  The
triangular destructuring defaults (`bInner = 0, bOuter = 0`) and the NaN
defaults of the other shapes are kept.  The default branch of the source
returns a constant-NaN width with NaN thickness; the NaN width is
modelled by the junk value 0 (the solver rejects unsupported shapes
before ever evaluating it) while its NaN thickness is kept exactly. -/
def makeWidthFn (shape : String) (params : Params) : WidthFn :=
  if shape = SectionType.Rectangular then
    { bfn := fun _ => qv params.b, t := getNum params.t,
      riOverride := .nan, roOverride := .nan }
  else if shape = SectionType.Trapezoidal then
    { bfn := fun y => qv params.bInner +
        (qv params.bOuter - qv params.bInner) / qv params.t * y,
      t := getNum params.t, riOverride := .nan, roOverride := .nan }
  else if shape = SectionType.Triangular then
    { bfn := fun y => max 0 ((params.bInner.getD (.num 0)).toQ +
        ((params.bOuter.getD (.num 0)).toQ - (params.bInner.getD (.num 0)).toQ)
          / qv params.t * y),
      t := getNum params.t, riOverride := .nan, roOverride := .nan }
  else if shape = SectionType.Circular then
    { bfn := fun y => 2 * Rat.sqrt (max 0 (qv params.d / 2 * (qv params.d / 2) -
        (y - qv params.d / 2) * (y - qv params.d / 2))),
      t := getNum params.d, riOverride := .nan, roOverride := .nan }
  else if shape = SectionType.TSection then
    { bfn := fun y =>
        (if qv params.R1 ≤ (jmin (getNum params.R1) (getNum params.R2)).toQ + y ∧
            (jmin (getNum params.R1) (getNum params.R2)).toQ + y ≤ qv params.R1 + qv params.t1
         then qv params.b1 else 0) +
        (if qv params.R2 ≤ (jmin (getNum params.R1) (getNum params.R2)).toQ + y ∧
            (jmin (getNum params.R1) (getNum params.R2)).toQ + y ≤ qv params.R2 + qv params.t2
         then qv params.b2 else 0),
      t := jsub (jmax (jadd (getNum params.R1) (getNum params.t1))
                      (jadd (getNum params.R2) (getNum params.t2)))
                (jmin (getNum params.R1) (getNum params.R2)),
      riOverride := jmin (getNum params.R1) (getNum params.R2),
      roOverride := jmax (jadd (getNum params.R1) (getNum params.t1))
                         (jadd (getNum params.R2) (getNum params.t2)) }
  else
    { bfn := fun _ => 0, t := .nan, riOverride := .nan, roOverride := .nan }

/-- The caller-facing input record of `computeCurvedBeam`; absent numeric
properties are NaN (they are only ever read through `Number.isFinite` or
arithmetic, where `undefined` and NaN behave alike), and `samples`
defaults to 201. -/
structure Input where
  shape : String
  ri : JSNum := .nan
  M : JSNum := .nan
  P : JSNum := .nan
  d : JSNum := .nan
  params : Params := {}
  samples : ℕ := 201

/-- A tagged stress extremum `{ value, atR, side }`. -/
structure SideInfo where
  value : ℚ
  atR : ℚ
  side : String
deriving DecidableEq

/-- The success record returned by `computeCurvedBeam` (all scalar fields
are finite on the success path, hence plain rationals; the sampled arrays
keep full JavaScript number semantics because a degenerate `samples`
count makes their entries NaN). -/
structure Success where
  A : ℚ
  ybar : ℚ
  yn : ℚ
  e : ℚ
  rInner : ℚ
  rOuter : ℚ
  sigmaInner : ℚ
  sigmaOuter : ℚ
  maxTension : SideInfo
  maxCompression : SideInfo
  r : List JSNum
  sigma : List JSNum
  Rn : ℚ
  Rc : ℚ
  R : ℚ
deriving DecidableEq

/-- The outcome of `computeCurvedBeam`: the full success record, or a
tagged failure `{ ok: false, message }` with no partial results. -/
inductive Result where
  | ok (res : Success)
  | fail (message : String)
deriving DecidableEq

/-- Failure message of the thickness check. -/
def tMsg : String := "Section thickness t must be > 0"

/-- Failure message of the inner-radius check. -/
def riMsg : String := "ri must be a positive number"

/-- Failure message of the moment-resolution check. -/
def momentMsg : String := "Provide bending moment M or both P and d"

/-- Failure message of the degenerate-geometry check. -/
def geomMsg : String := "Invalid geometry leading to zero/negative area or integral"

/-- Failure message of the vanishing-eccentricity check. -/
def eccMsg : String := "Eccentricity too small; check geometry (ri, t) and section parameters."

/-- Moment resolution: `P * d` when both are finite, else `M` when
finite, else NaN. -/
def resolveMoment (input : Input) : JSNum :=
  if input.P.isFinite && input.d.isFinite then jmul input.P input.d
  else if input.M.isFinite then input.M
  else .nan

/-- Effective inner radius: the width profile's override when finite
(T-section), else the caller-supplied `ri`. -/
def effRi (input : Input) : JSNum :=
  let w := makeWidthFn input.shape input.params
  if w.riOverride.isFinite then w.riOverride else input.ri

/-- Effective outer radius: the width profile's override when finite,
else `riLocal + t`. -/
def effRo (input : Input) : JSNum :=
  let w := makeWidthFn input.shape input.params
  if w.roOverride.isFinite then w.roOverride else .num ((effRi input).toQ + w.t.toQ)

/-- The area integral `A = ∫ b(y) dy` as evaluated by the solver. -/
def quadA (bfn : ℚ → ℚ) (tQ : ℚ) : ℚ := integrate tQ bfn defaultN

/-- The first-moment integral `Qy = ∫ y b(y) dy` as evaluated by the
solver. -/
def quadQy (bfn : ℚ → ℚ) (tQ : ℚ) : ℚ :=
  integrate tQ (fun y => y * bfn y) defaultN

/-- The Winkler integral `S = ∫ b(y) / (ri + y) dy` as evaluated by the
solver. -/
def quadS (bfn : ℚ → ℚ) (tQ riQ : ℚ) : ℚ :=
  integrate tQ (fun y => bfn y / (riQ + y)) defaultN

/-- The centroid offset `ybar = Qy / A`. -/
def ybarOf (bfn : ℚ → ℚ) (tQ : ℚ) : ℚ := quadQy bfn tQ / quadA bfn tQ

/-- The solver's `yn = A / S`. -/
def ynOf (bfn : ℚ → ℚ) (tQ riQ : ℚ) : ℚ := quadA bfn tQ / quadS bfn tQ riQ

/-- The solver's eccentricity `e = ybar - yn`. -/
def eOf (bfn : ℚ → ℚ) (tQ riQ : ℚ) : ℚ := ybarOf bfn tQ - ynOf bfn tQ riQ

/-- The directly computed inner-fiber stress
`sigmaInner = (M / (A e)) * (Rn / ri - 1)`. -/
def sigmaInOf (bfn : ℚ → ℚ) (tQ riQ MQ : ℚ) : ℚ :=
  MQ / (quadA bfn tQ * eOf bfn tQ riQ) * ((riQ + ynOf bfn tQ riQ) / riQ - 1)

/-- The directly computed outer-fiber stress
`sigmaOuter = (M / (A e)) * (Rn / ro - 1)`. -/
def sigmaOutOf (bfn : ℚ → ℚ) (tQ riQ roQ MQ : ℚ) : ℚ :=
  MQ / (quadA bfn tQ * eOf bfn tQ riQ) * ((riQ + ynOf bfn tQ riQ) / roQ - 1)

/-- The success record built by the solver once every check has passed:
the three trapezoidal integrals, the derived centroid / neutral-axis /
eccentricity quantities, the sampled `(r, sigma)` arrays (JavaScript
number semantics, `y = (i / (samples - 1)) * t`), the directly computed
boundary stresses, and the extremum records with the inner-surface tie
convention. -/
def mkSuccess (bfn : ℚ → ℚ) (tQ riQ roQ MQ : ℚ) (n : ℕ) : Success :=
  let A := quadA bfn tQ
  let Qy := quadQy bfn tQ
  let S := quadS bfn tQ riQ
  let ybar := Qy / A
  let yn := A / S
  let e := ybar - yn
  let Rn := riQ + yn
  let rs := (List.range n).map fun i : ℕ =>
    jadd (.num riQ) (jmul (jdiv (.num ((i : ℕ) : ℚ)) (.num ((n : ℚ) - 1))) (.num tQ))
  let ss := (List.range n).map fun i : ℕ =>
    jmul (jdiv (.num MQ) (.num (A * e)))
      (jsub (jdiv (.num Rn)
        (jadd (.num riQ) (jmul (jdiv (.num ((i : ℕ) : ℚ)) (.num ((n : ℚ) - 1))) (.num tQ))))
        (.num 1))
  let sigmaInner := MQ / (A * e) * (Rn / riQ - 1)
  let sigmaOuter := MQ / (A * e) * (Rn / roQ - 1)
  { A := A
    ybar := ybar
    yn := yn
    e := e
    rInner := riQ
    rOuter := roQ
    sigmaInner := sigmaInner
    sigmaOuter := sigmaOuter
    maxTension :=
      if sigmaOuter ≤ sigmaInner then
        { value := max sigmaInner sigmaOuter, atR := riQ, side := "inner" }
      else
        { value := max sigmaInner sigmaOuter, atR := roQ, side := "outer" }
    maxCompression :=
      if sigmaInner ≤ sigmaOuter then
        { value := min sigmaInner sigmaOuter, atR := riQ, side := "inner" }
      else
        { value := min sigmaInner sigmaOuter, atR := roQ, side := "outer" }
    r := rs
    sigma := ss
    Rn := Rn
    Rc := riQ + ybar
    R := Rn }

/-- The tail of the solver after validation, thickness, inner-radius and
moment resolution have succeeded: computes the three integrals, applies
the degenerate-geometry and vanishing-eccentricity checks in source
order, and otherwise returns the success record. -/
def solve (bfn : ℚ → ℚ) (tQ riQ roQ MQ : ℚ) (n : ℕ) : Result :=
  let A := quadA bfn tQ
  let Qy := quadQy bfn tQ
  let S := quadS bfn tQ riQ
  if 0 < A ∧ 0 < S then
    if |Qy / A - A / S| < 1 / 1000000000000 then .fail eccMsg
    else .ok (mkSuccess bfn tQ riQ roQ MQ n)
  else .fail geomMsg

/-- `computeCurvedBeam` from the source: validation, width profile and
thickness check, effective inner radius check, moment resolution, then
the integral pipeline of `solve`.  Every failure is a returned record;
the eccentricity finiteness test of the source (`!Number.isFinite(e)`)
is vacuous in exact rational arithmetic and the `|e| < 1e-12` tolerance
test is kept exactly. -/
def computeCurvedBeam (input : Input) : Result :=
  match validateParams input.shape input.params with
  | .fail m => .fail m
  | .ok =>
    let w := makeWidthFn input.shape input.params
    if w.t.gtZero then
      if (effRi input).isFinite && (effRi input).gtZero then
        if (resolveMoment input).isFinite then
          solve w.bfn w.t.toQ (effRi input).toQ (effRo input).toQ
            (resolveMoment input).toQ input.samples
        else .fail momentMsg
      else .fail riMsg
    else .fail tMsg

/-! ### Quadrature lemmas -/

/-- For a positive interval the trapezoidal sum decomposes into the two
half-weighted endpoint values and the uniformly weighted interior values;
the defensive `Math.min` clamp is the identity in exact arithmetic. -/
lemma integrate_pos_eq (t : ℚ) (f : ℚ → ℚ) (N : ℕ) (hN : 1 ≤ N) (ht : 0 < t) :
    integrate t f N =
      (f 0 / 2 + Finset.sum (Finset.Ioo 0 N) (fun i => f ((i : ℚ) * (t / N))) + f t / 2) *
        (t / N) := by
  have hNq : (0 : ℚ) < (N : ℚ) := by exact_mod_cast hN
  have hN0 : (N : ℚ) ≠ 0 := ne_of_gt hNq
  have hdy : 0 ≤ t / N := by positivity
  have hNt : (N : ℚ) * (t / N) = t := by field_simp
  have hmin : ∀ i : ℕ, i ≤ N → min ((i : ℚ) * (t / N)) t = (i : ℚ) * (t / N) := by
    intro i hi
    apply min_eq_left
    calc (i : ℚ) * (t / N) ≤ (N : ℚ) * (t / N) := by
          apply mul_le_mul_of_nonneg_right _ hdy
          exact_mod_cast hi
      _ = t := hNt
  unfold integrate
  rw [if_pos ht]
  congr 1
  have hset : Finset.range (N + 1) = insert 0 (insert N (Finset.Ioo 0 N)) := by
    ext i
    simp only [Finset.mem_range, Finset.mem_insert, Finset.mem_Ioo]
    omega
  rw [hset, Finset.sum_insert (by simp only [Finset.mem_insert, Finset.mem_Ioo]; omega),
    Finset.sum_insert (by simp only [Finset.mem_Ioo]; omega)]
  have hint : ∀ i ∈ Finset.Ioo 0 N,
      (if i = 0 ∨ i = N then (1 : ℚ) / 2 else 1) * f (min ((i : ℚ) * (t / N)) t) =
        f ((i : ℚ) * (t / N)) := by
    intro i hi
    simp only [Finset.mem_Ioo] at hi
    rw [hmin i (le_of_lt hi.2), if_neg (by omega)]
    ring
  rw [Finset.sum_congr rfl hint]
  have h0 : min (((0 : ℕ) : ℚ) * (t / N)) t = 0 := by
    rw [hmin 0 (by omega)]
    simp
  have hNe : min (((N : ℕ) : ℚ) * (t / N)) t = t := by
    rw [hmin N le_rfl, hNt]
  rw [h0, hNe]
  simp only [eq_self_iff_true, true_or, or_true, if_true]
  ring

/-- The trapezoidal rule is exact for constant integrands. -/
lemma integrate_const (c t : ℚ) (N : ℕ) (hN : 1 ≤ N) :
    integrate t (fun _ => c) N = if 0 < t then c * t else 0 := by
  by_cases ht : 0 < t
  · rw [if_pos ht, integrate_pos_eq t _ N hN ht, Finset.sum_const, Nat.card_Ioo]
    have hNq : (0 : ℚ) < (N : ℚ) := by exact_mod_cast hN
    have hN0 : (N : ℚ) ≠ 0 := ne_of_gt hNq
    have hcast : ((N - 0 - 1 : ℕ) : ℚ) = (N : ℚ) - 1 := by
      have : N - 0 - 1 = N - 1 := by omega
      rw [this, Nat.cast_sub hN]
      norm_num
    rw [nsmul_eq_mul, hcast]
    field_simp
    ring
  · rw [if_neg ht]
    unfold integrate
    rw [if_neg ht]

/-- Gauss sum over the interior indices. -/
lemma sum_Ioo_id (N : ℕ) :
    Finset.sum (Finset.Ioo 0 N) (fun i => (i : ℚ)) = (N : ℚ) * ((N : ℚ) - 1) / 2 := by
  induction N with
  | zero => simp
  | succ n ih =>
    rcases Nat.eq_zero_or_pos n with h | h
    · subst h
      have he : Finset.Ioo 0 1 = (∅ : Finset ℕ) := rfl
      rw [he]
      norm_num
    · have hset : Finset.Ioo 0 (n + 1) = insert n (Finset.Ioo 0 n) := by
        ext i
        simp only [Finset.mem_Ioo, Finset.mem_insert]
        omega
      rw [hset, Finset.sum_insert (by simp only [Finset.mem_Ioo]; omega), ih]
      push_cast
      ring

/-- The trapezoidal rule is exact for linear integrands `y ↦ y * c`. -/
lemma integrate_linear (c t : ℚ) (N : ℕ) (hN : 1 ≤ N) :
    integrate t (fun y => y * c) N = if 0 < t then c * t ^ 2 / 2 else 0 := by
  by_cases ht : 0 < t
  · rw [if_pos ht, integrate_pos_eq t _ N hN ht]
    have hNq : (0 : ℚ) < (N : ℚ) := by exact_mod_cast hN
    have hN0 : (N : ℚ) ≠ 0 := ne_of_gt hNq
    have hsum : Finset.sum (Finset.Ioo 0 N) (fun i => ((i : ℚ) * (t / N)) * c) =
        ((N : ℚ) * ((N : ℚ) - 1) / 2) * ((t / N) * c) := by
      rw [← sum_Ioo_id N, Finset.sum_mul]
      apply Finset.sum_congr rfl
      intro i _
      ring
    rw [hsum]
    field_simp
    ring
  · rw [if_neg ht]
    unfold integrate
    rw [if_neg ht]

/-- Pointwise bounds on the integrand over `[0, t]` carry over to the
trapezoidal sum. -/
lemma integrate_le (t : ℚ) (f g : ℚ → ℚ) (N : ℕ)
    (h : ∀ y, 0 ≤ y → y ≤ t → f y ≤ g y) :
    integrate t f N ≤ integrate t g N := by
  unfold integrate
  by_cases ht : 0 < t
  · rw [if_pos ht, if_pos ht]
    apply mul_le_mul_of_nonneg_right _ (by positivity)
    apply Finset.sum_le_sum
    intro i _
    have hy1 : 0 ≤ min ((i : ℚ) * (t / N)) t := le_min (by positivity) (le_of_lt ht)
    have hy2 : min ((i : ℚ) * (t / N)) t ≤ t := min_le_right _ _
    have hw : 0 ≤ (if i = 0 ∨ i = N then (1 : ℚ) / 2 else 1) := by
      split <;> norm_num
    exact mul_le_mul_of_nonneg_left (h _ hy1 hy2) hw
  · rw [if_neg ht, if_neg ht]

/-- Integrands that agree on `[0, t]` give equal trapezoidal sums. -/
lemma integrate_congr (t : ℚ) (f g : ℚ → ℚ) (N : ℕ)
    (h : ∀ y, 0 ≤ y → y ≤ t → f y = g y) :
    integrate t f N = integrate t g N :=
  le_antisymm (integrate_le t f g N fun y h1 h2 => le_of_eq (h y h1 h2))
    (integrate_le t g f N fun y h1 h2 => ge_of_eq (h y h1 h2))

/-- The trapezoidal sum of a strictly positive integrand over a positive
interval is strictly positive. -/
lemma integrate_pos (t : ℚ) (f : ℚ → ℚ) (N : ℕ) (ht : 0 < t) (hN : 1 ≤ N)
    (h : ∀ y, 0 ≤ y → y ≤ t → 0 < f y) :
    0 < integrate t f N := by
  rw [integrate_pos_eq t f N hN ht]
  have hNq : (0 : ℚ) < (N : ℚ) := by exact_mod_cast hN
  apply mul_pos _ (by positivity)
  have h0 : 0 < f 0 / 2 := by
    have := h 0 le_rfl (le_of_lt ht)
    positivity
  have hT : 0 < f t / 2 := by
    have := h t (le_of_lt ht) le_rfl
    positivity
  have hS : 0 ≤ Finset.sum (Finset.Ioo 0 N) (fun i => f ((i : ℚ) * (t / N))) := by
    apply Finset.sum_nonneg
    intro i hi
    simp only [Finset.mem_Ioo] at hi
    have hle : (i : ℚ) * (t / N) ≤ t := by
      calc (i : ℚ) * (t / N) ≤ (N : ℚ) * (t / N) := by
            apply mul_le_mul_of_nonneg_right _ (by positivity)
            exact_mod_cast le_of_lt hi.2
        _ = t := by field_simp
    exact le_of_lt (h _ (by positivity) hle)
  linarith

/-! ### JavaScript-number lemmas -/

/-- Addition of finite numbers is exact. -/
lemma jadd_num (a b : ℚ) : jadd (.num a) (.num b) = .num (a + b) := rfl

/-- Subtraction of finite numbers is exact. -/
lemma jsub_num (a b : ℚ) : jsub (.num a) (.num b) = .num (a - b) := by
  simp [jsub, jadd, jneg, sub_eq_add_neg]

/-- Minimum of finite numbers is exact. -/
lemma jmin_num (a b : ℚ) : jmin (.num a) (.num b) = .num (min a b) := rfl

/-- Maximum of finite numbers is exact. -/
lemma jmax_num (a b : ℚ) : jmax (.num a) (.num b) = .num (max a b) := rfl

/-- A finite JavaScript sum has finite operands. -/
lemma jadd_finite_elim {x y : JSNum} (h : (jadd x y).isFinite = true) :
    ∃ qa qb, x = .num qa ∧ y = .num qb := by
  cases x <;> cases y <;>
    first
      | exact ⟨_, _, rfl, rfl⟩
      | simp [jadd, JSNum.isFinite] at h

/-- A finite JavaScript negation has a finite operand. -/
lemma jneg_finite_elim {x : JSNum} (h : (jneg x).isFinite = true) :
    ∃ q, x = .num q := by
  cases x <;>
    first
      | exact ⟨_, rfl⟩
      | simp [jneg, JSNum.isFinite] at h

/-- A finite JavaScript difference has finite operands. -/
lemma jsub_finite_elim {x y : JSNum} (h : (jsub x y).isFinite = true) :
    ∃ qa qb, x = .num qa ∧ y = .num qb := by
  unfold jsub at h
  obtain ⟨qa, qb, hx, hy⟩ := jadd_finite_elim h
  obtain ⟨q, hq⟩ := jneg_finite_elim (x := y) (by rw [hy]; rfl)
  exact ⟨qa, q, hx, hq⟩

/-- A strictly positive rational view forces finiteness. -/
lemma toQ_pos_finite {x : JSNum} (h : 0 < x.toQ) : x.isFinite = true := by
  cases x <;> simp [JSNum.toQ, JSNum.isFinite] at h ⊢

/-- `makeWidthFn` unfolded at the rectangular tag. -/
lemma makeWidthFn_rect (params : Params) :
    makeWidthFn SectionType.Rectangular params =
      { bfn := fun _ => qv params.b, t := getNum params.t,
        riOverride := .nan, roOverride := .nan } := rfl

/-- `makeWidthFn` unfolded at the trapezoidal tag. -/
lemma makeWidthFn_trap (params : Params) :
    makeWidthFn SectionType.Trapezoidal params =
      { bfn := fun y => qv params.bInner +
          (qv params.bOuter - qv params.bInner) / qv params.t * y,
        t := getNum params.t, riOverride := .nan, roOverride := .nan } := rfl

/-- `makeWidthFn` unfolded at the triangular tag. -/
lemma makeWidthFn_tri (params : Params) :
    makeWidthFn SectionType.Triangular params =
      { bfn := fun y => max 0 ((params.bInner.getD (.num 0)).toQ +
          ((params.bOuter.getD (.num 0)).toQ - (params.bInner.getD (.num 0)).toQ)
            / qv params.t * y),
        t := getNum params.t, riOverride := .nan, roOverride := .nan } := rfl

/-- `makeWidthFn` unfolded at the circular tag. -/
lemma makeWidthFn_circ (params : Params) :
    makeWidthFn SectionType.Circular params =
      { bfn := fun y => 2 * Rat.sqrt (max 0 (qv params.d / 2 * (qv params.d / 2) -
          (y - qv params.d / 2) * (y - qv params.d / 2))),
        t := getNum params.d, riOverride := .nan, roOverride := .nan } := rfl

/-- `makeWidthFn` unfolded at the T-section tag. -/
lemma makeWidthFn_tsect (params : Params) :
    makeWidthFn SectionType.TSection params =
      { bfn := fun y =>
          (if qv params.R1 ≤ (jmin (getNum params.R1) (getNum params.R2)).toQ + y ∧
              (jmin (getNum params.R1) (getNum params.R2)).toQ + y ≤
                qv params.R1 + qv params.t1
           then qv params.b1 else 0) +
          (if qv params.R2 ≤ (jmin (getNum params.R1) (getNum params.R2)).toQ + y ∧
              (jmin (getNum params.R1) (getNum params.R2)).toQ + y ≤
                qv params.R2 + qv params.t2
           then qv params.b2 else 0),
        t := jsub (jmax (jadd (getNum params.R1) (getNum params.t1))
                        (jadd (getNum params.R2) (getNum params.t2)))
                  (jmin (getNum params.R1) (getNum params.R2)),
        riOverride := jmin (getNum params.R1) (getNum params.R2),
        roOverride := jmax (jadd (getNum params.R1) (getNum params.t1))
                           (jadd (getNum params.R2) (getNum params.t2)) } := rfl

/-! ### Pipeline characterization lemmas -/

/-- Whenever a width profile has a finite thickness and a finite
outer-radius override (only the T-section supplies overrides), its inner
override is finite as well and its thickness is exactly the difference of
the two overrides. -/
lemma widthFn_override (shape : String) (params : Params)
    (hro : (makeWidthFn shape params).roOverride.isFinite = true)
    (ht : (makeWidthFn shape params).t.isFinite = true) :
    (makeWidthFn shape params).riOverride.isFinite = true ∧
    (makeWidthFn shape params).t.toQ =
      (makeWidthFn shape params).roOverride.toQ -
        (makeWidthFn shape params).riOverride.toQ := by
  by_cases h1 : shape = SectionType.Rectangular
  · subst h1
    rw [makeWidthFn_rect] at hro
    simp [JSNum.isFinite] at hro
  by_cases h2 : shape = SectionType.Trapezoidal
  · subst h2
    rw [makeWidthFn_trap] at hro
    simp [JSNum.isFinite] at hro
  by_cases h3 : shape = SectionType.Triangular
  · subst h3
    rw [makeWidthFn_tri] at hro
    simp [JSNum.isFinite] at hro
  by_cases h4 : shape = SectionType.Circular
  · subst h4
    rw [makeWidthFn_circ] at hro
    simp [JSNum.isFinite] at hro
  by_cases h5 : shape = SectionType.TSection
  · subst h5
    rw [makeWidthFn_tsect] at ht ⊢
    obtain ⟨qa, qb, hM, hm⟩ := jsub_finite_elim ht
    refine ⟨by rw [hm]; rfl, ?_⟩
    rw [hM, hm, jsub_num]
    rfl
  · simp [makeWidthFn, h1, h2, h3, h4, h5, JSNum.isFinite] at hro

/-- On any path where the effective inner radius and the thickness are
finite, the resolved thickness equals the effective outer radius minus
the effective inner radius. -/
lemma eff_geom (input : Input)
    (ht : (makeWidthFn input.shape input.params).t.isFinite = true) :
    (makeWidthFn input.shape input.params).t.toQ =
      (effRo input).toQ - (effRi input).toQ := by
  by_cases h : (makeWidthFn input.shape input.params).roOverride.isFinite = true
  · obtain ⟨hri, hteq⟩ := widthFn_override input.shape input.params h ht
    have heri : effRi input = (makeWidthFn input.shape input.params).riOverride := by
      simp [effRi, hri]
    have hero : effRo input = (makeWidthFn input.shape input.params).roOverride := by
      simp [effRo, h]
    rw [heri, hero, hteq]
  · have hero : effRo input =
        .num ((effRi input).toQ + (makeWidthFn input.shape input.params).t.toQ) := by
      simp [effRo, h]
    rw [hero]
    simp [JSNum.toQ]

/-- `computeCurvedBeam` succeeds exactly when validation, the thickness
check, the inner-radius check and moment resolution all pass and the
integral pipeline `solve` succeeds on the resolved geometry. -/
lemma computeCurvedBeam_ok_iff (input : Input) (res : Success) :
    computeCurvedBeam input = .ok res ↔
      validateParams input.shape input.params = .ok ∧
      (makeWidthFn input.shape input.params).t.gtZero = true ∧
      ((effRi input).isFinite && (effRi input).gtZero) = true ∧
      (resolveMoment input).isFinite = true ∧
      solve (makeWidthFn input.shape input.params).bfn
        (makeWidthFn input.shape input.params).t.toQ (effRi input).toQ (effRo input).toQ
        (resolveMoment input).toQ input.samples = .ok res := by
  unfold computeCurvedBeam
  cases hv : validateParams input.shape input.params with
  | fail m => simp [hv]
  | ok =>
    by_cases h1 : (makeWidthFn input.shape input.params).t.gtZero = true
    · by_cases h2 : ((effRi input).isFinite && (effRi input).gtZero) = true
      · by_cases h3 : (resolveMoment input).isFinite = true
        · simp [h1, h2, h3]
        · simp [h1, h2, h3]
      · simp [h1, h2]
    · simp [h1]

/-- `solve` succeeds exactly when the area and Winkler integrals are
strictly positive and the eccentricity tolerance check passes, in which
case the result is the canonical success record. -/
lemma solve_ok_iff (bfn : ℚ → ℚ) (tQ riQ roQ MQ : ℚ) (n : ℕ) (res : Success) :
    solve bfn tQ riQ roQ MQ n = .ok res ↔
      (0 < quadA bfn tQ ∧ 0 < quadS bfn tQ riQ) ∧
      ¬ |quadQy bfn tQ / quadA bfn tQ - quadA bfn tQ / quadS bfn tQ riQ| <
          1 / 1000000000000 ∧
      res = mkSuccess bfn tQ riQ roQ MQ n := by
  unfold solve
  by_cases hg : 0 < quadA bfn tQ ∧ 0 < quadS bfn tQ riQ
  · rw [if_pos hg]
    by_cases he : |quadQy bfn tQ / quadA bfn tQ - quadA bfn tQ / quadS bfn tQ riQ| <
        1 / 1000000000000
    · rw [if_pos he]
      constructor
      · intro hh
        exact Result.noConfusion hh
      · rintro ⟨-, hecc, -⟩
        exact absurd he hecc
    · rw [if_neg he]
      constructor
      · intro hh
        injection hh with hh'
        exact ⟨hg, he, hh'.symm⟩
      · rintro ⟨-, -, rfl⟩
        rfl
  · rw [if_neg hg]
    constructor
    · intro hh
      exact Result.noConfusion hh
    · rintro ⟨hga, -, -⟩
      exact absurd hga hg

/-- Every success record of `computeCurvedBeam` is the canonical record
built from the resolved geometry, whose thickness is the difference of
the effective radii. -/
lemma compute_ok_elim (input : Input) (res : Success)
    (h : computeCurvedBeam input = .ok res) :
    res = mkSuccess (makeWidthFn input.shape input.params).bfn
        ((effRo input).toQ - (effRi input).toQ) (effRi input).toQ (effRo input).toQ
        (resolveMoment input).toQ input.samples := by
  obtain ⟨hv, ht, hri, hm, hs⟩ := (computeCurvedBeam_ok_iff input res).mp h
  rw [Bool.and_eq_true] at hri
  obtain ⟨⟨hA, hS⟩, hecc, hres⟩ := (solve_ok_iff _ _ _ _ _ _ _).mp hs
  have htpos : 0 < (makeWidthFn input.shape input.params).t.toQ := by
    by_contra hc
    rw [quadA, integrate, if_neg hc] at hA
    exact absurd hA (lt_irrefl 0)
  have htfin : (makeWidthFn input.shape input.params).t.isFinite = true :=
    toQ_pos_finite htpos
  rw [eff_geom input htfin] at hres
  exact hres

/-! ### Rectangular-section instances -/

/-- The trapezoidal area integral of a constant width is exact. -/
lemma quadA_const (c t : ℚ) (ht : 0 < t) : quadA (fun _ => c) t = c * t := by
  rw [quadA, integrate_const _ _ _ (by norm_num [defaultN]), if_pos ht]

/-- The trapezoidal first-moment integral of a constant width is exact. -/
lemma quadQy_const (c t : ℚ) (ht : 0 < t) :
    quadQy (fun _ => c) t = c * t ^ 2 / 2 := by
  rw [quadQy]
  have hfq : (fun y => y * (fun _ : ℚ => c) y) = fun y => y * c := rfl
  rw [hfq, integrate_linear _ _ _ (by norm_num [defaultN]), if_pos ht]

/-- The Winkler integral of a positive constant width is positive. -/
lemma quadS_pos (c t ri : ℚ) (hr : 0 < ri) (hc : 0 < c) (ht : 0 < t) :
    0 < quadS (fun _ => c) t ri := by
  rw [quadS]
  have hfq : (fun y => (fun _ : ℚ => c) y / (ri + y)) = fun y => c / (ri + y) := rfl
  rw [hfq]
  apply integrate_pos _ _ _ ht (by norm_num [defaultN])
  intro y hy0 _
  have hry : 0 < ri + y := by linarith
  positivity

/-- The Winkler integral of a constant width is bounded by the value of
its integrand at the inner surface times the thickness. -/
lemma quadS_le (c t ri : ℚ) (hr : 0 < ri) (hc : 0 ≤ c) (ht : 0 < t) :
    quadS (fun _ => c) t ri ≤ c / ri * t := by
  rw [quadS]
  have hfq : (fun y => (fun _ : ℚ => c) y / (ri + y)) = fun y => c / (ri + y) := rfl
  rw [hfq]
  calc integrate t (fun y => c / (ri + y)) defaultN
      ≤ integrate t (fun _ => c / ri) defaultN := by
        apply integrate_le
        intro y hy0 _
        gcongr
        linarith
    _ = c / ri * t := by
        rw [integrate_const _ _ _ (by norm_num [defaultN]), if_pos ht]

/-- Raw parameters of a rectangular section. -/
def rectParams (bv tv : ℚ) : Params := { b := some (.num bv), t := some (.num tv) }

/-- A fully specified rectangular-section input with a direct moment. -/
def rectInput (rv bv tv Mv : ℚ) (n : ℕ) : Input :=
  { shape := SectionType.Rectangular, ri := .num rv, M := .num Mv,
    params := rectParams bv tv, samples := n }

/-- The success record the solver produces on `rectInput`. -/
def rectSuccess (rv bv tv Mv : ℚ) (n : ℕ) : Success :=
  mkSuccess (fun _ => bv) tv rv (rv + tv) Mv n

/-- Positive rectangular parameters pass validation. -/
lemma rect_validate (bv tv : ℚ) (hb : 0 < bv) (ht : 0 < tv) :
    validateParams SectionType.Rectangular (rectParams bv tv) = .ok := by
  have hne : ¬ SectionType.Rectangular = SectionType.Triangular := by decide
  simp [validateParams, SectionSpecs, firstViolation, Params.get, rectParams, getNum,
    JSNum.isFinite, JSNum.gtZero, hb, ht, hne]

/-- The centroid offset of a constant width profile is `t / 2`. -/
lemma rect_ybar (bv tv : ℚ) (hb : 0 < bv) (ht : 0 < tv) :
    ybarOf (fun _ => bv) tv = tv / 2 := by
  have hbne : bv ≠ 0 := ne_of_gt hb
  have htne : tv ≠ 0 := ne_of_gt ht
  rw [ybarOf, quadA_const _ _ ht, quadQy_const _ _ ht]
  field_simp
  ring

/-- The solver's `yn = A / S` of a constant width profile is at least the
inner radius (the heart of the neutral-radius/offset confusion in the
source: `A / S` is an average of `ri + y`, not an offset). -/
lemma rect_yn_ge (rv bv tv : ℚ) (hr : 0 < rv) (hb : 0 < bv) (ht : 0 < tv) :
    rv ≤ ynOf (fun _ => bv) tv rv := by
  have hS0 := quadS_pos bv tv rv hr hb ht
  have hSle := quadS_le bv tv rv hr (le_of_lt hb) ht
  rw [ynOf, quadA_const _ _ ht, le_div_iff hS0]
  calc rv * quadS (fun _ => bv) tv rv ≤ rv * (bv / rv * tv) := by
        apply mul_le_mul_of_nonneg_left hSle (le_of_lt hr)
    _ = bv * tv := by field_simp

/-- The full pipeline succeeds on any rectangular input whose inner
radius exceeds `t / 2` by at least the eccentricity tolerance, and
returns the canonical success record. -/
lemma rect_compute (rv bv tv Mv : ℚ) (n : ℕ) (hr : 0 < rv) (hb : 0 < bv) (ht : 0 < tv)
    (he : tv / 2 + 1 / 1000000000000 ≤ rv) :
    computeCurvedBeam (rectInput rv bv tv Mv n) = .ok (rectSuccess rv bv tv Mv n) := by
  apply (computeCurvedBeam_ok_iff _ _).mpr
  refine ⟨rect_validate bv tv hb ht, ?_, ?_, ?_, ?_⟩
  · show JSNum.gtZero (.num tv) = true
    simp [JSNum.gtZero, ht]
  · show (JSNum.isFinite (.num rv) && JSNum.gtZero (.num rv)) = true
    simp [JSNum.isFinite, JSNum.gtZero, hr]
  · rfl
  · show solve (fun _ => bv) tv rv (rv + tv) Mv n = .ok (rectSuccess rv bv tv Mv n)
    apply (solve_ok_iff _ _ _ _ _ _ _).mpr
    have hA : quadA (fun _ => bv) tv = bv * tv := quadA_const bv tv ht
    have hS0 : 0 < quadS (fun _ => bv) tv rv := quadS_pos bv tv rv hr hb ht
    refine ⟨⟨?_, hS0⟩, ?_, rfl⟩
    · rw [hA]
      positivity
    · show ¬ |ybarOf (fun _ => bv) tv - ynOf (fun _ => bv) tv rv| < 1 / 1000000000000
      rw [rect_ybar bv tv hb ht]
      have hyn := rect_yn_ge rv bv tv hr hb ht
      intro habs
      have h2 := (abs_lt.mp habs).1
      linarith

/-- On rectangular inputs the solver's eccentricity is at most
`t / 2 - ri`. -/
lemma rectSuccess_e_le (rv bv tv Mv : ℚ) (n : ℕ)
    (hr : 0 < rv) (hb : 0 < bv) (ht : 0 < tv) :
    (rectSuccess rv bv tv Mv n).e ≤ tv / 2 - rv := by
  show eOf (fun _ => bv) tv rv ≤ tv / 2 - rv
  rw [eOf, rect_ybar bv tv hb ht]
  have hyn := rect_yn_ge rv bv tv hr hb ht
  linarith

/-- On rectangular inputs with positive moment and `ri > t / 2`, the
returned inner-fiber stress is strictly negative. -/
lemma rectSuccess_sigmaInner_neg (rv bv tv Mv : ℚ) (n : ℕ)
    (hr : 0 < rv) (hb : 0 < bv) (ht : 0 < tv) (hM : 0 < Mv) (hrt : tv / 2 < rv) :
    (rectSuccess rv bv tv Mv n).sigmaInner < 0 := by
  show sigmaInOf (fun _ => bv) tv rv Mv < 0
  have hyn := rect_yn_ge rv bv tv hr hb ht
  have heneg : eOf (fun _ => bv) tv rv < 0 := by
    rw [eOf, rect_ybar bv tv hb ht]
    linarith
  have hcoef : Mv / (quadA (fun _ => bv) tv * eOf (fun _ => bv) tv rv) < 0 := by
    apply div_neg_of_pos_of_neg hM
    apply mul_neg_of_pos_of_neg _ heneg
    rw [quadA_const _ _ ht]
    positivity
  have hfac : 0 < (rv + ynOf (fun _ => bv) tv rv) / rv - 1 := by
    have hlt : rv < rv + ynOf (fun _ => bv) tv rv := by linarith
    exact sub_pos.mpr ((one_lt_div hr).mpr hlt)
  exact mul_neg_of_neg_of_pos hcoef hfac

/-- On rectangular inputs with positive moment and `t < ri`, the returned
outer-fiber stress is also strictly negative: because the source adds
`ri` to `A / S` (already a radius), the computed neutral radius lies
outside the section, so both boundary stresses share a sign. -/
lemma rectSuccess_sigmaOuter_neg (rv bv tv Mv : ℚ) (n : ℕ)
    (hr : 0 < rv) (hb : 0 < bv) (ht : 0 < tv) (hM : 0 < Mv) (htr : tv < rv) :
    (rectSuccess rv bv tv Mv n).sigmaOuter < 0 := by
  show sigmaOutOf (fun _ => bv) tv rv (rv + tv) Mv < 0
  have hyn := rect_yn_ge rv bv tv hr hb ht
  have heneg : eOf (fun _ => bv) tv rv < 0 := by
    rw [eOf, rect_ybar bv tv hb ht]
    linarith
  have hcoef : Mv / (quadA (fun _ => bv) tv * eOf (fun _ => bv) tv rv) < 0 := by
    apply div_neg_of_pos_of_neg hM
    apply mul_neg_of_pos_of_neg _ heneg
    rw [quadA_const _ _ ht]
    positivity
  have hro : (0 : ℚ) < rv + tv := by linarith
  have hfac : 0 < (rv + ynOf (fun _ => bv) tv rv) / (rv + tv) - 1 := by
    have hlt : rv + tv < rv + ynOf (fun _ => bv) tv rv := by linarith
    exact sub_pos.mpr ((one_lt_div hro).mpr hlt)
  exact mul_neg_of_neg_of_pos hcoef hfac

/-! ### Projection lemmas for the success record -/

/-- `maxTension` of the canonical record, stated through its own stress
fields. -/
lemma mkSuccess_maxTension (bfn : ℚ → ℚ) (tQ riQ roQ MQ : ℚ) (n : ℕ) :
    (mkSuccess bfn tQ riQ roQ MQ n).maxTension =
      if (mkSuccess bfn tQ riQ roQ MQ n).sigmaOuter ≤ (mkSuccess bfn tQ riQ roQ MQ n).sigmaInner
      then { value := max (mkSuccess bfn tQ riQ roQ MQ n).sigmaInner
               (mkSuccess bfn tQ riQ roQ MQ n).sigmaOuter,
             atR := riQ, side := "inner" }
      else { value := max (mkSuccess bfn tQ riQ roQ MQ n).sigmaInner
               (mkSuccess bfn tQ riQ roQ MQ n).sigmaOuter,
             atR := roQ, side := "outer" } := rfl

/-- `maxCompression` of the canonical record, stated through its own
stress fields. -/
lemma mkSuccess_maxCompression (bfn : ℚ → ℚ) (tQ riQ roQ MQ : ℚ) (n : ℕ) :
    (mkSuccess bfn tQ riQ roQ MQ n).maxCompression =
      if (mkSuccess bfn tQ riQ roQ MQ n).sigmaInner ≤ (mkSuccess bfn tQ riQ roQ MQ n).sigmaOuter
      then { value := min (mkSuccess bfn tQ riQ roQ MQ n).sigmaInner
               (mkSuccess bfn tQ riQ roQ MQ n).sigmaOuter,
             atR := riQ, side := "inner" }
      else { value := min (mkSuccess bfn tQ riQ roQ MQ n).sigmaInner
               (mkSuccess bfn tQ riQ roQ MQ n).sigmaOuter,
             atR := roQ, side := "outer" } := rfl

/-! ### Claim theorems -/

/-- C2.  For a Rectangular section with `ri = 0.05`, `b = 0.02`,
`t = 0.02`, `M = 1000` (all other inputs defaulted), the claim asserts
that `computeCurvedBeam` succeeds with `sigmaInner` and `sigmaOuter` of
opposite signs.  The computation indeed succeeds, but BOTH boundary
stresses are strictly negative: because the source adds `ri` to
`A / S` — which is already the neutral-axis radius, not an offset — the
computed `Rn` lies outside the section and no sign change occurs.  This
contradicts the opposite-sign property and the stress law
`σ(r) = (M/(Ae))(1 − y_n/r)` stated in the source's own header comment. -/
theorem c2_rect_boundary_stresses_both_negative :
    computeCurvedBeam (rectInput (1/20) (1/50) (1/50) 1000 201) =
      .ok (rectSuccess (1/20) (1/50) (1/50) 1000 201) ∧
    (rectSuccess (1/20) (1/50) (1/50) 1000 201).sigmaInner < 0 ∧
    (rectSuccess (1/20) (1/50) (1/50) 1000 201).sigmaOuter < 0 :=
  ⟨rect_compute (1/20) (1/50) (1/50) 1000 201
      (by norm_num) (by norm_num) (by norm_num) (by norm_num),
   rectSuccess_sigmaInner_neg (1/20) (1/50) (1/50) 1000 201
      (by norm_num) (by norm_num) (by norm_num) (by norm_num) (by norm_num),
   rectSuccess_sigmaOuter_neg (1/20) (1/50) (1/50) 1000 201
      (by norm_num) (by norm_num) (by norm_num) (by norm_num) (by norm_num)⟩

/-- C3.  For a Rectangular section with `ri = 1e6`, `t = 0.02`
(with `b = 0.02`, `M = 1000`), the claim asserts the vanishing-
eccentricity failure.  Instead the code returns `ok: true`: its
eccentricity is `t/2 - A/S ≈ -1e6`, enormous rather than vanishing,
again because `A / S` is the neutral radius and not an offset from the
inner surface. -/
theorem c3_large_radius_returns_ok :
    computeCurvedBeam (rectInput 1000000 (1/50) (1/50) 1000 201) =
      .ok (rectSuccess 1000000 (1/50) (1/50) 1000 201) ∧
    (rectSuccess 1000000 (1/50) (1/50) 1000 201).e ≤ 1 / 100 - 1000000 :=
  ⟨rect_compute 1000000 (1/50) (1/50) 1000 201
      (by norm_num) (by norm_num) (by norm_num) (by norm_num),
   by
    have h := rectSuccess_e_le 1000000 (1/50) (1/50) 1000 201
      (by norm_num) (by norm_num) (by norm_num)
    linarith⟩

/-- C9.  On every success, `maxTension` is the larger of the two boundary
stresses and `maxCompression` the smaller, each tagged with the surface
attaining it (value, radius and side); an exact tie yields the inner
surface's value, radius and side for both. -/
theorem c9_extrema_tagging (input : Input) (res : Success)
    (hok : computeCurvedBeam input = .ok res) :
    (res.maxTension =
      if res.sigmaOuter ≤ res.sigmaInner
      then { value := max res.sigmaInner res.sigmaOuter, atR := res.rInner, side := "inner" }
      else { value := max res.sigmaInner res.sigmaOuter, atR := res.rOuter, side := "outer" }) ∧
    (res.maxCompression =
      if res.sigmaInner ≤ res.sigmaOuter
      then { value := min res.sigmaInner res.sigmaOuter, atR := res.rInner, side := "inner" }
      else { value := min res.sigmaInner res.sigmaOuter, atR := res.rOuter, side := "outer" }) ∧
    (res.sigmaInner = res.sigmaOuter →
      res.maxTension = { value := res.sigmaInner, atR := res.rInner, side := "inner" } ∧
      res.maxCompression = { value := res.sigmaInner, atR := res.rInner, side := "inner" }) := by
  have hres := compute_ok_elim input res hok
  subst hres
  refine ⟨rfl, rfl, fun heq => ⟨?_, ?_⟩⟩
  · rw [mkSuccess_maxTension, if_pos (le_of_eq heq.symm), max_eq_left (le_of_eq heq.symm)]
    rfl
  · rw [mkSuccess_maxCompression, if_pos (le_of_eq heq), min_eq_left (le_of_eq heq)]
    rfl

/-- Witness for C9 at a concrete rectangular success. -/
theorem c9_extrema_tagging_witness :
    computeCurvedBeam (rectInput (1/20) (1/50) (1/50) 1000 201) =
      .ok (rectSuccess (1/20) (1/50) (1/50) 1000 201) ∧
    (rectSuccess (1/20) (1/50) (1/50) 1000 201).maxTension =
      (if (rectSuccess (1/20) (1/50) (1/50) 1000 201).sigmaOuter ≤
          (rectSuccess (1/20) (1/50) (1/50) 1000 201).sigmaInner
       then { value := max (rectSuccess (1/20) (1/50) (1/50) 1000 201).sigmaInner
                (rectSuccess (1/20) (1/50) (1/50) 1000 201).sigmaOuter,
              atR := (rectSuccess (1/20) (1/50) (1/50) 1000 201).rInner, side := "inner" }
       else { value := max (rectSuccess (1/20) (1/50) (1/50) 1000 201).sigmaInner
                (rectSuccess (1/20) (1/50) (1/50) 1000 201).sigmaOuter,
              atR := (rectSuccess (1/20) (1/50) (1/50) 1000 201).rOuter, side := "outer" }) := by
  have hok := rect_compute (1/20) (1/50) (1/50) 1000 201
    (by norm_num) (by norm_num) (by norm_num) (by norm_num)
  exact ⟨hok, (c9_extrema_tagging _ _ hok).1⟩

/-- NaN absorbs JavaScript multiplication on the right. -/
lemma jmul_nan_right (x : JSNum) : jmul x .nan = .nan := by
  cases x <;> rfl

/-- NaN absorbs JavaScript multiplication on the left. -/
lemma jmul_nan_left (x : JSNum) : jmul .nan x = .nan := by
  cases x <;> rfl

/-- NaN absorbs JavaScript addition on the right. -/
lemma jadd_nan_right (x : JSNum) : jadd x .nan = .nan := by
  cases x <;> rfl

/-- NaN absorbs JavaScript division on the right. -/
lemma jdiv_nan_right (x : JSNum) : jdiv x .nan = .nan := by
  cases x <;> rfl

/-- The single sample entry of the radius array degenerates to NaN when
`samples = 1`: the sample position divides by `samples - 1 = 0` as
`0 / 0 = NaN`, and NaN propagates through the remaining arithmetic. -/
lemma mkSuccess_r_one (bfn : ℚ → ℚ) (tQ riQ roQ MQ : ℚ) :
    (mkSuccess bfn tQ riQ roQ MQ 1).r = [.nan] ∧
    (mkSuccess bfn tQ riQ roQ MQ 1).sigma = [.nan] := by
  have hr1 : List.range 1 = [0] := rfl
  constructor
  · dsimp only [mkSuccess]
    rw [hr1, List.map_singleton]
    norm_num [jdiv, jmul, jadd]
  · dsimp only [mkSuccess]
    rw [hr1, List.map_singleton]
    norm_num [jdiv, jadd, jsub, jneg, jmul_nan_left, jmul_nan_right, jadd_nan_right,
      jdiv_nan_right]

/-- C10.  If the caller passes `samples = 1` and every check passes,
`computeCurvedBeam` still returns `ok: true`, but the sample position
divides by `samples - 1 = 0`, so the returned arrays are `r = [NaN]` and
`sigma = [NaN]`; no check rejects a degenerate sample count. -/
theorem c10_single_sample_nan (input : Input) (res : Success)
    (hsamp : input.samples = 1) (hok : computeCurvedBeam input = .ok res) :
    res.r = [.nan] ∧ res.sigma = [.nan] := by
  have hres := compute_ok_elim input res hok
  rw [hsamp] at hres
  rw [hres]
  exact mkSuccess_r_one _ _ _ _ _

/-- Witness for C10: a concrete rectangular input with `samples = 1`
succeeds and returns the NaN singleton arrays. -/
theorem c10_single_sample_nan_witness :
    (rectInput (1/20) (1/50) (1/50) 1000 1).samples = 1 ∧
    computeCurvedBeam (rectInput (1/20) (1/50) (1/50) 1000 1) =
      .ok (rectSuccess (1/20) (1/50) (1/50) 1000 1) ∧
    (rectSuccess (1/20) (1/50) (1/50) 1000 1).r = [.nan] ∧
    (rectSuccess (1/20) (1/50) (1/50) 1000 1).sigma = [.nan] := by
  have hok := rect_compute (1/20) (1/50) (1/50) 1000 1
    (by norm_num) (by norm_num) (by norm_num) (by norm_num)
  have h := c10_single_sample_nan _ _ rfl hok
  exact ⟨rfl, hok, h.1, h.2⟩

/-- C1.  On every success of `computeCurvedBeam`, with effective radii
`ri_eff = rInner`, `ro = rOuter`, thickness `t = rOuter - rInner`,
resolved moment `M`, sample count `n = samples`, and the three trapezoid
quadrature values `A`, `Qy`, `S` over `[0, t]`, the record satisfies
`ybar = Qy/A`, `yn = A/S`, `e = ybar - yn`, `Rn = ri_eff + yn`,
`Rc = ri_eff + ybar` (and `R = Rn`); the arrays have length `n` with
`r[i] = ri_eff + (i/(n-1))·t` and
`sigma[i] = (M/(A·e))·(Rn/r[i] - 1)` computed in JavaScript arithmetic
(which agrees with the exact formula whenever `n ≥ 2`); and the boundary
stresses are computed directly from the closed formulas at `ri_eff` and
`ro`, not read back from the sample arrays. -/
theorem c1_success_record_fields (input : Input) (res : Success)
    (hok : computeCurvedBeam input = .ok res) :
    res.rInner = (effRi input).toQ ∧
    res.rOuter = (effRo input).toQ ∧
    res.A = quadA (makeWidthFn input.shape input.params).bfn (res.rOuter - res.rInner) ∧
    res.ybar = quadQy (makeWidthFn input.shape input.params).bfn (res.rOuter - res.rInner) /
      quadA (makeWidthFn input.shape input.params).bfn (res.rOuter - res.rInner) ∧
    res.yn = quadA (makeWidthFn input.shape input.params).bfn (res.rOuter - res.rInner) /
      quadS (makeWidthFn input.shape input.params).bfn (res.rOuter - res.rInner) res.rInner ∧
    res.e = res.ybar - res.yn ∧
    res.Rn = res.rInner + res.yn ∧
    res.Rc = res.rInner + res.ybar ∧
    res.R = res.Rn ∧
    res.r.length = input.samples ∧
    res.sigma.length = input.samples ∧
    (∀ i : ℕ, i < input.samples →
      res.r.get? i = some (jadd (.num res.rInner)
        (jmul (jdiv (.num (i : ℚ)) (.num ((input.samples : ℚ) - 1)))
          (.num (res.rOuter - res.rInner)))) ∧
      res.sigma.get? i = some (jmul
        (jdiv (.num (resolveMoment input).toQ) (.num (res.A * res.e)))
        (jsub (jdiv (.num res.Rn) (jadd (.num res.rInner)
          (jmul (jdiv (.num (i : ℚ)) (.num ((input.samples : ℚ) - 1)))
            (.num (res.rOuter - res.rInner)))))
          (.num 1)))) ∧
    (2 ≤ input.samples → ∀ i : ℕ, i < input.samples →
      res.r.get? i = some (.num (res.rInner +
        (i : ℚ) / ((input.samples : ℚ) - 1) * (res.rOuter - res.rInner)))) ∧
    res.sigmaInner =
      (resolveMoment input).toQ / (res.A * res.e) * (res.Rn / res.rInner - 1) ∧
    res.sigmaOuter =
      (resolveMoment input).toQ / (res.A * res.e) * (res.Rn / res.rOuter - 1) := by
  have hres := compute_ok_elim input res hok
  subst hres
  refine ⟨rfl, rfl, rfl, rfl, rfl, rfl, rfl, rfl, rfl, ?_, ?_, ?_, ?_, rfl, rfl⟩
  · dsimp only [mkSuccess]
    rw [List.length_map, List.length_range]
  · dsimp only [mkSuccess]
    rw [List.length_map, List.length_range]
  · intro i hi
    constructor
    · dsimp only [mkSuccess]
      rw [List.get?_map, List.get?_range hi, Option.map_some']
    · dsimp only [mkSuccess]
      rw [List.get?_map, List.get?_range hi, Option.map_some']
  · intro h2 i hi
    have hne : ((input.samples : ℚ) - 1) ≠ 0 := by
      have h2q : (2 : ℚ) ≤ (input.samples : ℚ) := by exact_mod_cast h2
      intro hz
      rw [sub_eq_zero] at hz
      rw [hz] at h2q
      norm_num at h2q
    dsimp only [mkSuccess]
    rw [List.get?_map, List.get?_range hi, Option.map_some']
    rw [jdiv, if_neg hne, jmul, jadd]

/-- Witness for C1 at a concrete rectangular success. -/
theorem c1_success_record_fields_witness :
    computeCurvedBeam (rectInput (1/20) (1/50) (1/50) 1000 5) =
      .ok (rectSuccess (1/20) (1/50) (1/50) 1000 5) ∧
    (rectSuccess (1/20) (1/50) (1/50) 1000 5).rInner =
      (effRi (rectInput (1/20) (1/50) (1/50) 1000 5)).toQ ∧
    (rectSuccess (1/20) (1/50) (1/50) 1000 5).r.length = 5 ∧
    (rectSuccess (1/20) (1/50) (1/50) 1000 5).e =
      (rectSuccess (1/20) (1/50) (1/50) 1000 5).ybar -
        (rectSuccess (1/20) (1/50) (1/50) 1000 5).yn := by
  have hok := rect_compute (1/20) (1/50) (1/50) 1000 5
    (by norm_num) (by norm_num) (by norm_num) (by norm_num)
  have h := c1_success_record_fields _ _ hok
  exact ⟨hok, h.1, h.2.2.2.2.2.2.2.2.2.1, h.2.2.2.2.2.1⟩

/-- `solve` fails only with the degenerate-geometry or the
vanishing-eccentricity message. -/
lemma solve_fail_elim (bfn : ℚ → ℚ) (tQ riQ roQ MQ : ℚ) (n : ℕ) (m : String)
    (h : solve bfn tQ riQ roQ MQ n = .fail m) : m = geomMsg ∨ m = eccMsg := by
  unfold solve at h
  by_cases hg : 0 < quadA bfn tQ ∧ 0 < quadS bfn tQ riQ
  · rw [if_pos hg] at h
    by_cases he : |quadQy bfn tQ / quadA bfn tQ - quadA bfn tQ / quadS bfn tQ riQ| <
        1 / 1000000000000
    · rw [if_pos he] at h
      injection h with h'
      exact Or.inr h'.symm
    · rw [if_neg he] at h
      exact Result.noConfusion h
  · rw [if_neg hg] at h
    injection h with h'
    exact Or.inl h'.symm

/-- C4.  `computeCurvedBeam` never throws: every outcome is either a full
success record or a returned failure record with a message only.  Once
the pipeline reaches the integration step (`solve`), it returns the
degenerate-geometry failure exactly when `A > 0 ∧ S > 0` fails; given
the geometry check passes, it returns the vanishing-eccentricity failure
exactly when `|ybar - yn| < 1e-12` (in exact rational arithmetic the
eccentricity is automatically finite, making the source's
`!Number.isFinite(e)` disjunct vacuous). -/
theorem c4_failure_taxonomy :
    (∀ input : Input, (∃ res, computeCurvedBeam input = .ok res) ∨
      ∃ m, computeCurvedBeam input = .fail m) ∧
    (∀ (bfn : ℚ → ℚ) (tQ riQ roQ MQ : ℚ) (n : ℕ),
      (solve bfn tQ riQ roQ MQ n = .fail geomMsg ↔
        ¬ (0 < quadA bfn tQ ∧ 0 < quadS bfn tQ riQ)) ∧
      ((0 < quadA bfn tQ ∧ 0 < quadS bfn tQ riQ) →
        (solve bfn tQ riQ roQ MQ n = .fail eccMsg ↔
          |quadQy bfn tQ / quadA bfn tQ - quadA bfn tQ / quadS bfn tQ riQ| <
            1 / 1000000000000))) := by
  constructor
  · intro input
    cases h : computeCurvedBeam input with
    | ok r => exact Or.inl ⟨r, rfl⟩
    | fail m => exact Or.inr ⟨m, rfl⟩
  · intro bfn tQ riQ roQ MQ n
    have hne : ¬ eccMsg = geomMsg := by decide
    constructor
    · unfold solve
      by_cases hg : 0 < quadA bfn tQ ∧ 0 < quadS bfn tQ riQ
      · rw [if_pos hg]
        constructor
        · intro hh
          by_cases he : |quadQy bfn tQ / quadA bfn tQ - quadA bfn tQ / quadS bfn tQ riQ| <
              1 / 1000000000000
          · rw [if_pos he] at hh
            injection hh with hh'
            exact absurd hh' hne
          · rw [if_neg he] at hh
            exact Result.noConfusion hh
        · intro hh
          exact absurd hg hh
      · rw [if_neg hg]
        constructor
        · intro _
          exact hg
        · intro _
          rfl
    · intro hg
      unfold solve
      rw [if_pos hg]
      by_cases he : |quadQy bfn tQ / quadA bfn tQ - quadA bfn tQ / quadS bfn tQ riQ| <
          1 / 1000000000000
      · rw [if_pos he]
        exact ⟨fun _ => he, fun _ => rfl⟩
      · rw [if_neg he]
        exact ⟨fun hh => Result.noConfusion hh, fun hh => absurd hh he⟩

/-- Witness for C4: a zero-width profile triggers the degenerate-geometry
failure, and for a unit-square profile the eccentricity iff is
instantiated with its geometric hypothesis discharged. -/
theorem c4_failure_taxonomy_witness :
    solve (fun _ => (0 : ℚ)) 1 1 2 5 3 = .fail geomMsg ∧
    (solve (fun _ => (1 : ℚ)) 1 1 2 5 3 = .fail eccMsg ↔
      |quadQy (fun _ => (1 : ℚ)) 1 / quadA (fun _ => (1 : ℚ)) 1 -
        quadA (fun _ => (1 : ℚ)) 1 / quadS (fun _ => (1 : ℚ)) 1 1| < 1 / 1000000000000) := by
  constructor
  · apply (c4_failure_taxonomy.2 (fun _ => 0) 1 1 2 5 3).1.mpr
    rintro ⟨hA, -⟩
    rw [quadA_const 0 1 (by norm_num)] at hA
    norm_num at hA
  · apply (c4_failure_taxonomy.2 (fun _ => 1) 1 1 2 5 3).2
    constructor
    · rw [quadA_const 1 1 (by norm_num)]
      norm_num
    · exact quadS_pos 1 1 1 (by norm_num) (by norm_num) (by norm_num)

/-- C8.  `integrate t f N` returns 0 whenever `t` is not strictly
positive, and for `t > 0` returns the composite trapezoidal sum
`(t/N)·(f(0)/2 + f(t/N) + … + f((N-1)t/N) + f(t)/2)` over `N` equal
subintervals; the solver's default sample density is `N = 800`. -/
theorem c8_trapezoid_rule (t : ℚ) (f : ℚ → ℚ) (N : ℕ) (hN : 1 ≤ N) :
    (integrate t f N =
      if 0 < t then
        t / N * (f 0 / 2 +
          Finset.sum (Finset.Ioo 0 N) (fun i => f ((i : ℚ) * (t / N))) + f t / 2)
      else 0) ∧
    defaultN = 800 := by
  refine ⟨?_, rfl⟩
  by_cases ht : 0 < t
  · rw [if_pos ht, integrate_pos_eq t f N hN ht, mul_comm]
  · rw [if_neg ht]
    unfold integrate
    rw [if_neg ht]

/-- Witness for C8: the trapezoid formula evaluated for the identity
integrand on `[0, 1]` with two subintervals. -/
theorem c8_trapezoid_rule_witness :
    integrate 1 (fun y => y) 2 = 1 / 2 := by
  have h := (c8_trapezoid_rule 1 (fun y => y) 2 (by norm_num)).1
  rw [h, if_pos (by norm_num : (0 : ℚ) < 1)]
  have hIoo : Finset.Ioo 0 2 = ({1} : Finset ℕ) := rfl
  rw [hIoo, Finset.sum_singleton]
  norm_num

/-! ### Validator message analysis -/

/-- A finite JavaScript number is a rational. -/
lemma isFinite_elim {x : JSNum} (h : x.isFinite = true) : ∃ q, x = .num q := by
  cases x <;>
    first
      | exact ⟨_, rfl⟩
      | simp [JSNum.isFinite] at h

/-- Every violation message produced by the parameter scan names the
offending field's label together with its required sign. -/
lemma firstViolation_msg (l : List ParamSpec) (p : Params) (m : String)
    (h : firstViolation l p = some m) :
    ∃ ps, ps ∈ l ∧ (m = ps.label ++ " must be > 0" ∨ m = ps.label ++ " must be ≥ 0") := by
  induction l with
  | nil => simp [firstViolation] at h
  | cons ps rest ih =>
    simp only [firstViolation] at h
    by_cases h1 : (ps.positive && !((getNum (p.get ps.key)).isFinite &&
        (getNum (p.get ps.key)).gtZero)) = true
    · rw [if_pos h1] at h
      injection h with h'
      exact ⟨ps, List.mem_cons_self ps rest, Or.inl h'.symm⟩
    · rw [if_neg h1] at h
      by_cases h2 : (ps.nonNegative && !((getNum (p.get ps.key)).isFinite &&
          (getNum (p.get ps.key)).geZero)) = true
      · rw [if_pos h2] at h
        injection h with h'
        exact ⟨ps, List.mem_cons_self ps rest, Or.inr h'.symm⟩
      · rw [if_neg h2] at h
        obtain ⟨ps', hmem, hm⟩ := ih h
        exact ⟨ps', List.mem_cons_of_mem ps hmem, hm⟩

/-- The label of any declared parameter is one of the eleven labels of
the `SectionSpecs` table. -/
lemma specs_label_cases (shape : String) (specs : List ParamSpec) (ps : ParamSpec)
    (hs : SectionSpecs shape = some specs) (hmem : ps ∈ specs) :
    ps.label = "Width b (m)" ∨ ps.label = "Thickness t (m)" ∨
    ps.label = "Inner width b_inner (m)" ∨ ps.label = "Outer width b_outer (m)" ∨
    ps.label = "Diameter d (m)" ∨ ps.label = "Rect 1 inner radius R1 (m)" ∨
    ps.label = "Rect 1 thickness t1 (m)" ∨ ps.label = "Rect 1 width b1 (m)" ∨
    ps.label = "Rect 2 inner radius R2 (m)" ∨ ps.label = "Rect 2 thickness t2 (m)" ∨
    ps.label = "Rect 2 width b2 (m)" := by
  unfold SectionSpecs at hs
  split at hs
  · injection hs with hs'
    subst hs'
    fin_cases hmem <;> simp
  · split at hs
    · injection hs with hs'
      subst hs'
      fin_cases hmem <;> simp
    · split at hs
      · injection hs with hs'
        subst hs'
        fin_cases hmem <;> simp
      · split at hs
        · injection hs with hs'
          subst hs'
          fin_cases hmem <;> simp
        · split at hs
          · injection hs with hs'
            subst hs'
            fin_cases hmem <;> simp
          · exact Option.noConfusion hs

/-- Every failure message of the validator is the unsupported-shape
message, the triangular cross-field message, or a per-field message
naming the offending label. -/
lemma validate_fail_msg (shape : String) (p : Params) (m : String)
    (h : validateParams shape p = .fail m) :
    m = "Unsupported shape" ∨ m = "At least one of b_inner or b_outer must be > 0" ∨
    ∃ specs ps, SectionSpecs shape = some specs ∧ ps ∈ specs ∧
      (m = ps.label ++ " must be > 0" ∨ m = ps.label ++ " must be ≥ 0") := by
  unfold validateParams at h
  split at h
  · injection h with h'
    exact Or.inl h'.symm
  · next specs hs =>
    split at h
    · next m' hv =>
      injection h with h'
      subst h'
      obtain ⟨ps, hmem, hm⟩ := firstViolation_msg specs p m' hv
      exact Or.inr (Or.inr ⟨specs, ps, hs, hmem, hm⟩)
    · next hv =>
      by_cases htri : shape = SectionType.Triangular
      · rw [if_pos htri] at h
        by_cases hz : ((jsOrZero (getNum p.bInner)).leZero &&
            (jsOrZero (getNum p.bOuter)).leZero) = true
        · rw [if_pos hz] at h
          injection h with h'
          exact Or.inr (Or.inl h'.symm)
        · rw [if_neg hz] at h
          exact Valid.noConfusion h
      · rw [if_neg htri] at h
        exact Valid.noConfusion h

/-- No validator failure carries the missing-load message. -/
lemma validate_fail_ne_moment (shape : String) (p : Params) (m : String)
    (h : validateParams shape p = .fail m) : m ≠ momentMsg := by
  rcases validate_fail_msg shape p m h with h1 | h1 | ⟨specs, ps, hs, hmem, h1 | h1⟩
  · subst h1
    decide
  · subst h1
    decide
  · subst h1
    have hl := specs_label_cases shape specs ps hs hmem
    rcases hl with h2|h2|h2|h2|h2|h2|h2|h2|h2|h2|h2 <;> rw [h2] <;> decide
  · subst h1
    have hl := specs_label_cases shape specs ps hs hmem
    rcases hl with h2|h2|h2|h2|h2|h2|h2|h2|h2|h2|h2 <;> rw [h2] <;> decide

/-- C5.  The applied moment is `P * d` whenever both are finite, else the
directly supplied `M` when finite; the missing-load failure occurs only
when neither resolves (in exact arithmetic a product of finite numbers
is always finite, so `P, d` finite always resolves). -/
theorem c5_moment_resolution (input : Input) :
    ((input.P.isFinite && input.d.isFinite) = true →
      resolveMoment input = jmul input.P input.d) ∧
    ((input.P.isFinite && input.d.isFinite) = false → input.M.isFinite = true →
      resolveMoment input = input.M) ∧
    (computeCurvedBeam input = .fail momentMsg →
      (input.P.isFinite && input.d.isFinite) = false ∧ input.M.isFinite = false) := by
  refine ⟨?_, ?_, ?_⟩
  · intro hpd
    unfold resolveMoment
    rw [if_pos hpd]
  · intro hpd hM
    unfold resolveMoment
    rw [if_neg (by rw [hpd]; simp), if_pos hM]
  · intro h
    have hnf : (resolveMoment input).isFinite = false := by
      cases hb : (resolveMoment input).isFinite with
      | false => rfl
      | true =>
        exfalso
        unfold computeCurvedBeam at h
        split at h
        · next m' hv =>
          injection h with h'
          exact validate_fail_ne_moment _ _ _ hv h'
        · by_cases h1 : (makeWidthFn input.shape input.params).t.gtZero = true
          · rw [if_pos h1] at h
            by_cases h2 : ((effRi input).isFinite && (effRi input).gtZero) = true
            · rw [if_pos h2, if_pos hb] at h
              rcases solve_fail_elim _ _ _ _ _ _ _ h with h' | h'
              · exact absurd h' (by decide)
              · exact absurd h' (by decide)
            · rw [if_neg h2] at h
              injection h with h'
              exact absurd h' (by decide)
          · rw [if_neg h1] at h
            injection h with h'
            exact absurd h' (by decide)
    constructor
    · cases hpd : (input.P.isFinite && input.d.isFinite) with
      | false => rfl
      | true =>
        exfalso
        have hpd2 := hpd
        rw [Bool.and_eq_true] at hpd2
        obtain ⟨qp, hqp⟩ := isFinite_elim hpd2.1
        obtain ⟨qd, hqd⟩ := isFinite_elim hpd2.2
        have hres : resolveMoment input = .num (qp * qd) := by
          unfold resolveMoment
          rw [if_pos hpd, hqp, hqd]
          rfl
        rw [hres] at hnf
        simp [JSNum.isFinite] at hnf
    · cases hM : input.M.isFinite with
      | false => rfl
      | true =>
        exfalso
        cases hpd : (input.P.isFinite && input.d.isFinite) with
        | true =>
          have hpd2 := hpd
          rw [Bool.and_eq_true] at hpd2
          obtain ⟨qp, hqp⟩ := isFinite_elim hpd2.1
          obtain ⟨qd, hqd⟩ := isFinite_elim hpd2.2
          have hres : resolveMoment input = .num (qp * qd) := by
            unfold resolveMoment
            rw [if_pos hpd, hqp, hqd]
            rfl
          rw [hres] at hnf
          simp [JSNum.isFinite] at hnf
        | false =>
          have hres : resolveMoment input = input.M := by
            unfold resolveMoment
            rw [if_neg (by rw [hpd]; simp), if_pos hM]
          obtain ⟨qm, hqm⟩ := isFinite_elim hM
          rw [hres, hqm] at hnf
          simp [JSNum.isFinite] at hnf

/-- Input supplying both a force and a lever arm. -/
def pdInput : Input :=
  { shape := SectionType.Rectangular, P := .num 2, d := .num 3, params := rectParams 1 1 }

/-- Input supplying only a direct moment. -/
def mOnlyInput : Input :=
  { shape := SectionType.Rectangular, M := .num 7, params := rectParams 1 1 }

/-- Valid rectangular input that supplies no load at all. -/
def noLoadInput : Input :=
  { shape := SectionType.Rectangular, ri := .num 1, params := rectParams 1 1 }

/-- Witness for C5: the three moment-resolution behaviours at concrete
inputs, the third via the missing-load failure of the full pipeline. -/
theorem c5_moment_resolution_witness :
    resolveMoment pdInput = jmul (.num 2) (.num 3) ∧
    resolveMoment mOnlyInput = .num 7 ∧
    ((noLoadInput.P.isFinite && noLoadInput.d.isFinite) = false ∧
      noLoadInput.M.isFinite = false) :=
  ⟨(c5_moment_resolution pdInput).1 rfl,
   (c5_moment_resolution mOnlyInput).2.1 rfl rfl,
   (c5_moment_resolution noLoadInput).2.2 (by decide)⟩

/-! ### Validator acceptance analysis -/

/-- The parameter is present, finite and strictly positive. -/
def posParam (x : Option JSNum) : Prop := ∃ q : ℚ, getNum x = .num q ∧ 0 < q

/-- The parameter is present, finite and non-negative. -/
def nnParam (x : Option JSNum) : Prop := ∃ q : ℚ, getNum x = .num q ∧ 0 ≤ q

/-- `posParam` matches the validator's finite-and-positive test. -/
lemma posParam_iff (x : Option JSNum) :
    posParam x ↔ ((getNum x).isFinite && (getNum x).gtZero) = true := by
  cases h : getNum x with
  | num q => simp [posParam, h, JSNum.isFinite, JSNum.gtZero]
  | nan => simp [posParam, h, JSNum.isFinite]
  | posInf => simp [posParam, h, JSNum.isFinite]
  | negInf => simp [posParam, h, JSNum.isFinite]

/-- `nnParam` matches the validator's finite-and-non-negative test. -/
lemma nnParam_iff (x : Option JSNum) :
    nnParam x ↔ ((getNum x).isFinite && (getNum x).geZero) = true := by
  cases h : getNum x with
  | num q => simp [nnParam, h, JSNum.isFinite, JSNum.geZero]
  | nan => simp [nnParam, h, JSNum.isFinite]
  | posInf => simp [nnParam, h, JSNum.isFinite]
  | negInf => simp [nnParam, h, JSNum.isFinite]

/-- `x || 0` is the identity on finite numbers (`0` is replaced by the
equal value `0`). -/
lemma jsOrZero_num (q : ℚ) : jsOrZero (.num q) = .num q := by
  show (if q = 0 then JSNum.num 0 else JSNum.num q) = JSNum.num q
  by_cases h : q = 0
  · rw [if_pos h, h]
  · rw [if_neg h]

/-- `validateParams` unfolded once the shape's parameter table is known. -/
lemma validateParams_some (shape : String) (p : Params) (specs : List ParamSpec)
    (hs : SectionSpecs shape = some specs) :
    validateParams shape p =
      (match firstViolation specs p with
        | some m => Valid.fail m
        | none =>
          if shape = SectionType.Triangular then
            if (jsOrZero (getNum p.bInner)).leZero && (jsOrZero (getNum p.bOuter)).leZero then
              Valid.fail "At least one of b_inner or b_outer must be > 0"
            else Valid.ok
          else Valid.ok) := by
  unfold validateParams
  rw [hs]

/-- When the scan reports no violation, every declared parameter passes
both of its sign tests. -/
lemma firstViolation_none_pass (l : List ParamSpec) (p : Params)
    (hfv : firstViolation l p = none) :
    ∀ ps ∈ l,
      (ps.positive && !((getNum (p.get ps.key)).isFinite &&
        (getNum (p.get ps.key)).gtZero)) = false ∧
      (ps.nonNegative && !((getNum (p.get ps.key)).isFinite &&
        (getNum (p.get ps.key)).geZero)) = false := by
  induction l with
  | nil => simp
  | cons ps rest ih =>
    simp only [firstViolation] at hfv
    by_cases h1 : (ps.positive && !((getNum (p.get ps.key)).isFinite &&
        (getNum (p.get ps.key)).gtZero)) = true
    · rw [if_pos h1] at hfv
      exact Option.noConfusion hfv
    · rw [if_neg h1] at hfv
      by_cases h2 : (ps.nonNegative && !((getNum (p.get ps.key)).isFinite &&
          (getNum (p.get ps.key)).geZero)) = true
      · rw [if_pos h2] at hfv
        exact Option.noConfusion hfv
      · rw [if_neg h2] at hfv
        rw [Bool.not_eq_true] at h1 h2
        intro q hq
        rcases List.mem_cons.mp hq with rfl | hmem
        · exact ⟨h1, h2⟩
        · exact ih hfv q hmem

/-- Conversely, the scan reports no violation when every declared
parameter passes both of its sign tests. -/
lemma firstViolation_none_of_pass (l : List ParamSpec) (p : Params)
    (hpass : ∀ ps ∈ l,
      (ps.positive && !((getNum (p.get ps.key)).isFinite &&
        (getNum (p.get ps.key)).gtZero)) = false ∧
      (ps.nonNegative && !((getNum (p.get ps.key)).isFinite &&
        (getNum (p.get ps.key)).geZero)) = false) :
    firstViolation l p = none := by
  induction l with
  | nil => rfl
  | cons ps rest ih =>
    obtain ⟨h1, h2⟩ := hpass ps (List.mem_cons_self ps rest)
    simp only [firstViolation]
    rw [if_neg (by rw [h1]; simp), if_neg (by rw [h2]; simp)]
    exact ih fun q hq => hpass q (List.mem_cons_of_mem ps hq)

/-- Shapes outside the table are rejected with the unsupported-shape
message. -/
lemma validate_unsupported (shape : String) (p : Params)
    (h : SectionSpecs shape = none) :
    validateParams shape p = .fail "Unsupported shape" := by
  unfold validateParams
  rw [h]

/-- The table has no entry for an unsupported shape identifier. -/
lemma sectionSpecs_none (shape : String)
    (h : ¬ (shape = SectionType.Rectangular ∨ shape = SectionType.Trapezoidal ∨
      shape = SectionType.Triangular ∨ shape = SectionType.Circular ∨
      shape = SectionType.TSection)) :
    SectionSpecs shape = none := by
  push_neg at h
  obtain ⟨h1, h2, h3, h4, h5⟩ := h
  unfold SectionSpecs
  rw [if_neg h1, if_neg h2, if_neg h3, if_neg h4, if_neg h5]

/-- Acceptance condition of the rectangular shape. -/
lemma validate_rect_iff (p : Params) :
    validateParams SectionType.Rectangular p = .ok ↔ posParam p.b ∧ posParam p.t := by
  rw [validateParams_some SectionType.Rectangular p _ rfl]
  constructor
  · intro h
    cases hfv : firstViolation
        [⟨.b, "Width b (m)", true, false⟩, ⟨.t, "Thickness t (m)", true, false⟩] p with
    | some m =>
      rw [hfv] at h
      exact Valid.noConfusion h
    | none =>
      have hpass := firstViolation_none_pass _ p hfv
      have hb := (hpass ⟨.b, "Width b (m)", true, false⟩ (by simp)).1
      have ht := (hpass ⟨.t, "Thickness t (m)", true, false⟩ (by simp)).1
      exact ⟨(posParam_iff _).mpr (by simpa [Params.get] using hb),
        (posParam_iff _).mpr (by simpa [Params.get] using ht)⟩
  · rintro ⟨hb, ht⟩
    rw [posParam_iff] at hb ht
    have hfv : firstViolation
        [⟨.b, "Width b (m)", true, false⟩, ⟨.t, "Thickness t (m)", true, false⟩] p = none := by
      apply firstViolation_none_of_pass
      intro ps hmem
      fin_cases hmem
      · exact ⟨by simp [Params.get, hb], by simp⟩
      · exact ⟨by simp [Params.get, ht], by simp⟩
    rw [hfv]
    rfl

/-- Acceptance condition of the trapezoidal shape. -/
lemma validate_trap_iff (p : Params) :
    validateParams SectionType.Trapezoidal p = .ok ↔
      posParam p.bInner ∧ posParam p.bOuter ∧ posParam p.t := by
  rw [validateParams_some SectionType.Trapezoidal p _ rfl]
  constructor
  · intro h
    cases hfv : firstViolation
        [⟨.bInner, "Inner width b_inner (m)", true, false⟩,
         ⟨.bOuter, "Outer width b_outer (m)", true, false⟩,
         ⟨.t, "Thickness t (m)", true, false⟩] p with
    | some m =>
      rw [hfv] at h
      exact Valid.noConfusion h
    | none =>
      have hpass := firstViolation_none_pass _ p hfv
      have hbi := (hpass ⟨.bInner, "Inner width b_inner (m)", true, false⟩ (by simp)).1
      have hbo := (hpass ⟨.bOuter, "Outer width b_outer (m)", true, false⟩ (by simp)).1
      have ht := (hpass ⟨.t, "Thickness t (m)", true, false⟩ (by simp)).1
      exact ⟨(posParam_iff _).mpr (by simpa [Params.get] using hbi),
        (posParam_iff _).mpr (by simpa [Params.get] using hbo),
        (posParam_iff _).mpr (by simpa [Params.get] using ht)⟩
  · rintro ⟨hbi, hbo, ht⟩
    rw [posParam_iff] at hbi hbo ht
    have hfv : firstViolation
        [⟨.bInner, "Inner width b_inner (m)", true, false⟩,
         ⟨.bOuter, "Outer width b_outer (m)", true, false⟩,
         ⟨.t, "Thickness t (m)", true, false⟩] p = none := by
      apply firstViolation_none_of_pass
      intro ps hmem
      fin_cases hmem
      · exact ⟨by simp [Params.get, hbi], by simp⟩
      · exact ⟨by simp [Params.get, hbo], by simp⟩
      · exact ⟨by simp [Params.get, ht], by simp⟩
    rw [hfv]
    rfl

/-- Acceptance condition of the circular shape. -/
lemma validate_circ_iff (p : Params) :
    validateParams SectionType.Circular p = .ok ↔ posParam p.d := by
  rw [validateParams_some SectionType.Circular p _ rfl]
  constructor
  · intro h
    cases hfv : firstViolation [⟨.d, "Diameter d (m)", true, false⟩] p with
    | some m =>
      rw [hfv] at h
      exact Valid.noConfusion h
    | none =>
      have hpass := firstViolation_none_pass _ p hfv
      have hd := (hpass ⟨.d, "Diameter d (m)", true, false⟩ (by simp)).1
      exact (posParam_iff _).mpr (by simpa [Params.get] using hd)
  · intro hd
    rw [posParam_iff] at hd
    have hfv : firstViolation [⟨.d, "Diameter d (m)", true, false⟩] p = none := by
      apply firstViolation_none_of_pass
      intro ps hmem
      fin_cases hmem
      · exact ⟨by simp [Params.get, hd], by simp⟩
    rw [hfv]
    rfl

/-- Acceptance condition of the T-section shape. -/
lemma validate_tsect_iff (p : Params) :
    validateParams SectionType.TSection p = .ok ↔
      posParam p.R1 ∧ posParam p.t1 ∧ posParam p.b1 ∧
      posParam p.R2 ∧ posParam p.t2 ∧ posParam p.b2 := by
  rw [validateParams_some SectionType.TSection p _ rfl]
  constructor
  · intro h
    cases hfv : firstViolation
        [⟨.R1, "Rect 1 inner radius R1 (m)", true, false⟩,
         ⟨.t1, "Rect 1 thickness t1 (m)", true, false⟩,
         ⟨.b1, "Rect 1 width b1 (m)", true, false⟩,
         ⟨.R2, "Rect 2 inner radius R2 (m)", true, false⟩,
         ⟨.t2, "Rect 2 thickness t2 (m)", true, false⟩,
         ⟨.b2, "Rect 2 width b2 (m)", true, false⟩] p with
    | some m =>
      rw [hfv] at h
      exact Valid.noConfusion h
    | none =>
      have hpass := firstViolation_none_pass _ p hfv
      have h1 := (hpass ⟨.R1, "Rect 1 inner radius R1 (m)", true, false⟩ (by simp)).1
      have h2 := (hpass ⟨.t1, "Rect 1 thickness t1 (m)", true, false⟩ (by simp)).1
      have h3 := (hpass ⟨.b1, "Rect 1 width b1 (m)", true, false⟩ (by simp)).1
      have h4 := (hpass ⟨.R2, "Rect 2 inner radius R2 (m)", true, false⟩ (by simp)).1
      have h5 := (hpass ⟨.t2, "Rect 2 thickness t2 (m)", true, false⟩ (by simp)).1
      have h6 := (hpass ⟨.b2, "Rect 2 width b2 (m)", true, false⟩ (by simp)).1
      exact ⟨(posParam_iff _).mpr (by simpa [Params.get] using h1),
        (posParam_iff _).mpr (by simpa [Params.get] using h2),
        (posParam_iff _).mpr (by simpa [Params.get] using h3),
        (posParam_iff _).mpr (by simpa [Params.get] using h4),
        (posParam_iff _).mpr (by simpa [Params.get] using h5),
        (posParam_iff _).mpr (by simpa [Params.get] using h6)⟩
  · rintro ⟨h1, h2, h3, h4, h5, h6⟩
    rw [posParam_iff] at h1 h2 h3 h4 h5 h6
    have hfv : firstViolation
        [⟨.R1, "Rect 1 inner radius R1 (m)", true, false⟩,
         ⟨.t1, "Rect 1 thickness t1 (m)", true, false⟩,
         ⟨.b1, "Rect 1 width b1 (m)", true, false⟩,
         ⟨.R2, "Rect 2 inner radius R2 (m)", true, false⟩,
         ⟨.t2, "Rect 2 thickness t2 (m)", true, false⟩,
         ⟨.b2, "Rect 2 width b2 (m)", true, false⟩] p = none := by
      apply firstViolation_none_of_pass
      intro ps hmem
      fin_cases hmem
      · exact ⟨by simp [Params.get, h1], by simp⟩
      · exact ⟨by simp [Params.get, h2], by simp⟩
      · exact ⟨by simp [Params.get, h3], by simp⟩
      · exact ⟨by simp [Params.get, h4], by simp⟩
      · exact ⟨by simp [Params.get, h5], by simp⟩
      · exact ⟨by simp [Params.get, h6], by simp⟩
    rw [hfv]
    rfl

/-- Acceptance condition of the triangular shape, including the
cross-field rule rejecting a doubly zero width. -/
lemma validate_tri_iff (p : Params) :
    validateParams SectionType.Triangular p = .ok ↔
      nnParam p.bInner ∧ nnParam p.bOuter ∧ posParam p.t ∧
      (posParam p.bInner ∨ posParam p.bOuter) := by
  rw [validateParams_some SectionType.Triangular p _ rfl]
  constructor
  · intro h
    cases hfv : firstViolation
        [⟨.bInner, "Inner width b_inner (m)", false, true⟩,
         ⟨.bOuter, "Outer width b_outer (m)", false, true⟩,
         ⟨.t, "Thickness t (m)", true, false⟩] p with
    | some m =>
      rw [hfv] at h
      exact Valid.noConfusion h
    | none =>
      rw [hfv] at h
      have hpass := firstViolation_none_pass _ p hfv
      have hbi := (hpass ⟨.bInner, "Inner width b_inner (m)", false, true⟩ (by simp)).2
      have hbo := (hpass ⟨.bOuter, "Outer width b_outer (m)", false, true⟩ (by simp)).2
      have ht := (hpass ⟨.t, "Thickness t (m)", true, false⟩ (by simp)).1
      have hbi' : ((getNum p.bInner).isFinite && (getNum p.bInner).geZero) = true := by
        simpa [Params.get] using hbi
      have hbo' : ((getNum p.bOuter).isFinite && (getNum p.bOuter).geZero) = true := by
        simpa [Params.get] using hbo
      have ht' : ((getNum p.t).isFinite && (getNum p.t).gtZero) = true := by
        simpa [Params.get] using ht
      refine ⟨(nnParam_iff _).mpr hbi', (nnParam_iff _).mpr hbo',
        (posParam_iff _).mpr ht', ?_⟩
      have h2 : (if ((jsOrZero (getNum p.bInner)).leZero &&
          (jsOrZero (getNum p.bOuter)).leZero) = true
          then Valid.fail "At least one of b_inner or b_outer must be > 0"
          else Valid.ok) = Valid.ok := h
      by_cases hz : ((jsOrZero (getNum p.bInner)).leZero &&
          (jsOrZero (getNum p.bOuter)).leZero) = true
      · rw [if_pos hz] at h2
        exact Valid.noConfusion h2
      · rw [Bool.and_eq_true] at hbi' hbo'
        obtain ⟨qi, hqi⟩ := isFinite_elim hbi'.1
        obtain ⟨qo, hqo⟩ := isFinite_elim hbo'.1
        by_cases hA : (jsOrZero (getNum p.bInner)).leZero = true
        · have hB : (jsOrZero (getNum p.bOuter)).leZero = false := by
            cases hBc : (jsOrZero (getNum p.bOuter)).leZero with
            | false => rfl
            | true => exact absurd (by rw [hA, hBc]; rfl) hz
          refine Or.inr ⟨qo, hqo, ?_⟩
          rw [hqo, jsOrZero_num] at hB
          simp only [JSNum.leZero, decide_eq_false_iff_not] at hB
          exact not_le.mp hB
        · have hA' : (jsOrZero (getNum p.bInner)).leZero = false := by
            cases hAc : (jsOrZero (getNum p.bInner)).leZero with
            | false => rfl
            | true => exact absurd hAc hA
          refine Or.inl ⟨qi, hqi, ?_⟩
          rw [hqi, jsOrZero_num] at hA'
          simp only [JSNum.leZero, decide_eq_false_iff_not] at hA'
          exact not_le.mp hA'
  · rintro ⟨hbi, hbo, ht, hpos⟩
    have hbi' := (nnParam_iff _).mp hbi
    have hbo' := (nnParam_iff _).mp hbo
    have ht' := (posParam_iff _).mp ht
    have hfv : firstViolation
        [⟨.bInner, "Inner width b_inner (m)", false, true⟩,
         ⟨.bOuter, "Outer width b_outer (m)", false, true⟩,
         ⟨.t, "Thickness t (m)", true, false⟩] p = none := by
      apply firstViolation_none_of_pass
      intro ps hmem
      fin_cases hmem
      · exact ⟨by simp, by simp [Params.get, hbi']⟩
      · exact ⟨by simp, by simp [Params.get, hbo']⟩
      · exact ⟨by simp [Params.get, ht'], by simp⟩
    rw [hfv]
    show (if ((jsOrZero (getNum p.bInner)).leZero &&
        (jsOrZero (getNum p.bOuter)).leZero) = true
        then Valid.fail "At least one of b_inner or b_outer must be > 0"
        else Valid.ok) = Valid.ok
    have hzf : ((jsOrZero (getNum p.bInner)).leZero &&
        (jsOrZero (getNum p.bOuter)).leZero) = false := by
      rcases hpos with ⟨q, hq, h0⟩ | ⟨q, hq, h0⟩
      · have hlz : (jsOrZero (getNum p.bInner)).leZero = false := by
          rw [hq, jsOrZero_num]
          simp only [JSNum.leZero, decide_eq_false_iff_not, not_le]
          exact h0
        rw [hlz]
        simp
      · have hlz : (jsOrZero (getNum p.bOuter)).leZero = false := by
          rw [hq, jsOrZero_num]
          simp only [JSNum.leZero, decide_eq_false_iff_not, not_le]
          exact h0
        rw [hlz]
        simp
    rw [if_neg (by rw [hzf]; simp)]

/-- C7.  The validator accepts exactly when the shape is one of the five
supported identifiers and every declared parameter is a finite number
satisfying its sign constraint, with the triangular cross-field rule
requiring at least one strictly positive width; unsupported shapes fail
with the unsupported-shape message; and every rejection message is the
unsupported-shape message, the triangular cross-field message, or a
message naming the offending field's label with its required sign. -/
theorem c7_validator_acceptance (shape : String) (p : Params) :
    (validateParams shape p = .ok ↔
      ((shape = SectionType.Rectangular ∧ posParam p.b ∧ posParam p.t) ∨
       (shape = SectionType.Trapezoidal ∧ posParam p.bInner ∧ posParam p.bOuter ∧
         posParam p.t) ∨
       (shape = SectionType.Triangular ∧ nnParam p.bInner ∧ nnParam p.bOuter ∧
         posParam p.t ∧ (posParam p.bInner ∨ posParam p.bOuter)) ∨
       (shape = SectionType.Circular ∧ posParam p.d) ∨
       (shape = SectionType.TSection ∧ posParam p.R1 ∧ posParam p.t1 ∧ posParam p.b1 ∧
         posParam p.R2 ∧ posParam p.t2 ∧ posParam p.b2))) ∧
    (¬ (shape = SectionType.Rectangular ∨ shape = SectionType.Trapezoidal ∨
        shape = SectionType.Triangular ∨ shape = SectionType.Circular ∨
        shape = SectionType.TSection) →
      validateParams shape p = .fail "Unsupported shape") ∧
    (∀ m, validateParams shape p = .fail m →
      m = "Unsupported shape" ∨ m = "At least one of b_inner or b_outer must be > 0" ∨
      ∃ specs ps, SectionSpecs shape = some specs ∧ ps ∈ specs ∧
        (m = ps.label ++ " must be > 0" ∨ m = ps.label ++ " must be ≥ 0")) := by
  refine ⟨?_, fun h => validate_unsupported shape p (sectionSpecs_none shape h),
    fun m => validate_fail_msg shape p m⟩
  by_cases h1 : shape = SectionType.Rectangular
  · subst h1
    rw [validate_rect_iff]
    constructor
    · intro h
      exact Or.inl ⟨rfl, h.1, h.2⟩
    · rintro (⟨-, hb, ht⟩ | ⟨hsh, -⟩ | ⟨hsh, -⟩ | ⟨hsh, -⟩ | ⟨hsh, -⟩)
      · exact ⟨hb, ht⟩
      all_goals exact absurd hsh (by decide)
  by_cases h2 : shape = SectionType.Trapezoidal
  · subst h2
    rw [validate_trap_iff]
    constructor
    · intro h
      exact Or.inr (Or.inl ⟨rfl, h⟩)
    · rintro (⟨hsh, -⟩ | ⟨-, h⟩ | ⟨hsh, -⟩ | ⟨hsh, -⟩ | ⟨hsh, -⟩)
      · exact absurd hsh (by decide)
      · exact h
      all_goals exact absurd hsh (by decide)
  by_cases h3 : shape = SectionType.Triangular
  · subst h3
    rw [validate_tri_iff]
    constructor
    · intro h
      exact Or.inr (Or.inr (Or.inl ⟨rfl, h⟩))
    · rintro (⟨hsh, -⟩ | ⟨hsh, -⟩ | ⟨-, h⟩ | ⟨hsh, -⟩ | ⟨hsh, -⟩)
      · exact absurd hsh (by decide)
      · exact absurd hsh (by decide)
      · exact h
      all_goals exact absurd hsh (by decide)
  by_cases h4 : shape = SectionType.Circular
  · subst h4
    rw [validate_circ_iff]
    constructor
    · intro h
      exact Or.inr (Or.inr (Or.inr (Or.inl ⟨rfl, h⟩)))
    · rintro (⟨hsh, -⟩ | ⟨hsh, -⟩ | ⟨hsh, -⟩ | ⟨-, h⟩ | ⟨hsh, -⟩)
      · exact absurd hsh (by decide)
      · exact absurd hsh (by decide)
      · exact absurd hsh (by decide)
      · exact h
      · exact absurd hsh (by decide)
  by_cases h5 : shape = SectionType.TSection
  · subst h5
    rw [validate_tsect_iff]
    constructor
    · intro h
      exact Or.inr (Or.inr (Or.inr (Or.inr ⟨rfl, h⟩)))
    · rintro (⟨hsh, -⟩ | ⟨hsh, -⟩ | ⟨hsh, -⟩ | ⟨hsh, -⟩ | ⟨-, h⟩)
      · exact absurd hsh (by decide)
      · exact absurd hsh (by decide)
      · exact absurd hsh (by decide)
      · exact absurd hsh (by decide)
      · exact h
  · have hn : SectionSpecs shape = none := by
      apply sectionSpecs_none
      rintro (h | h | h | h | h)
      · exact h1 h
      · exact h2 h
      · exact h3 h
      · exact h4 h
      · exact h5 h
    rw [validate_unsupported shape p hn]
    constructor
    · intro h
      exact Valid.noConfusion h
    · rintro (⟨hsh, -⟩ | ⟨hsh, -⟩ | ⟨hsh, -⟩ | ⟨hsh, -⟩ | ⟨hsh, -⟩)
      · exact absurd hsh h1
      · exact absurd hsh h2
      · exact absurd hsh h3
      · exact absurd hsh h4
      · exact absurd hsh h5

/-- Triangular parameters with one zero width (accepted). -/
def triOkParams : Params :=
  { bInner := some (.num 0), bOuter := some (.num (3/100)), t := some (.num (1/50)) }

/-- Triangular parameters with both widths zero (rejected). -/
def triBadParams : Params :=
  { bInner := some (.num 0), bOuter := some (.num 0), t := some (.num (1/50)) }

/-- Witness for C7: the triangular examples of the claim and an
unsupported shape identifier. -/
theorem c7_validator_acceptance_witness :
    validateParams SectionType.Triangular triOkParams = .ok ∧
    validateParams SectionType.Triangular triBadParams ≠ .ok ∧
    validateParams "hexagonal" {} = .fail "Unsupported shape" := by
  refine ⟨?_, ?_, ?_⟩
  · apply (c7_validator_acceptance SectionType.Triangular triOkParams).1.mpr
    refine Or.inr (Or.inr (Or.inl ⟨rfl, ⟨0, rfl, le_refl 0⟩, ⟨3/100, rfl, by norm_num⟩,
      ⟨1/50, rfl, by norm_num⟩, Or.inr ⟨3/100, rfl, by norm_num⟩⟩))
  · intro hok
    rcases (c7_validator_acceptance SectionType.Triangular triBadParams).1.mp hok with
      ⟨hsh, -⟩ | ⟨hsh, -⟩ | ⟨-, -, -, -, hpos⟩ | ⟨hsh, -⟩ | ⟨hsh, -⟩
    · exact absurd hsh (by decide)
    · exact absurd hsh (by decide)
    · rcases hpos with ⟨q, hq, h0⟩ | ⟨q, hq, h0⟩
      · injection hq with hq'
        rw [← hq'] at h0
        norm_num at h0
      · injection hq with hq'
        rw [← hq'] at h0
        norm_num at h0
    · exact absurd hsh (by decide)
    · exact absurd hsh (by decide)
  · exact (c7_validator_acceptance "hexagonal" {}).2.1 (by decide)

/-- When the width profile supplies a finite inner-radius override, the
caller's `ri` has no influence on the outcome. -/
lemma compute_ri_irrelevant (shape : String) (x₁ x₂ M P d : JSNum) (p : Params) (n : ℕ)
    (hov : (makeWidthFn shape p).riOverride.isFinite = true) :
    computeCurvedBeam
      { shape := shape, ri := x₁, M := M, P := P, d := d, params := p, samples := n } =
    computeCurvedBeam
      { shape := shape, ri := x₂, M := M, P := P, d := d, params := p, samples := n } := by
  have heff : effRi
      { shape := shape, ri := x₁, M := M, P := P, d := d, params := p, samples := n } =
      effRi { shape := shape, ri := x₂, M := M, P := P, d := d, params := p, samples := n } := by
    unfold effRi
    dsimp only
    rw [if_pos hov, if_pos hov]
  have hro : effRo
      { shape := shape, ri := x₁, M := M, P := P, d := d, params := p, samples := n } =
      effRo { shape := shape, ri := x₂, M := M, P := P, d := d, params := p, samples := n } := by
    unfold effRo
    dsimp only
    rw [heff]
  have hmom : resolveMoment
      { shape := shape, ri := x₁, M := M, P := P, d := d, params := p, samples := n } =
      resolveMoment
        { shape := shape, ri := x₂, M := M, P := P, d := d, params := p, samples := n } := rfl
  unfold computeCurvedBeam
  dsimp only
  rw [heff, hro, hmom]

/-- C6.  For a validated T-section, the width at offset `y` is `b1` when
`min(R1,R2) + y` lies in `[R1, R1 + t1]` plus `b2` when it lies in
`[R2, R2 + t2]` (widths sum over the common range, giving `b1 + b2` for
fully overlapping rectangles); the profile's inner override is
`min(R1, R2)`, its outer override is `max(R1 + t1, R2 + t2)` and its
thickness is their difference; and the caller-supplied `ri` is ignored —
the outcome is independent of it, and the inner-radius failure never
occurs even with `ri` absent. -/
theorem c6_tsection_profile (p : Params)
    (hval : validateParams SectionType.TSection p = .ok) :
    (∀ y : ℚ,
      (makeWidthFn SectionType.TSection p).bfn y =
        (if qv p.R1 ≤ min (qv p.R1) (qv p.R2) + y ∧
            min (qv p.R1) (qv p.R2) + y ≤ qv p.R1 + qv p.t1
         then qv p.b1 else 0) +
        (if qv p.R2 ≤ min (qv p.R1) (qv p.R2) + y ∧
            min (qv p.R1) (qv p.R2) + y ≤ qv p.R2 + qv p.t2
         then qv p.b2 else 0)) ∧
    (makeWidthFn SectionType.TSection p).riOverride = .num (min (qv p.R1) (qv p.R2)) ∧
    (makeWidthFn SectionType.TSection p).roOverride =
      .num (max (qv p.R1 + qv p.t1) (qv p.R2 + qv p.t2)) ∧
    (makeWidthFn SectionType.TSection p).t =
      .num (max (qv p.R1 + qv p.t1) (qv p.R2 + qv p.t2) - min (qv p.R1) (qv p.R2)) ∧
    (qv p.R1 = qv p.R2 → qv p.t1 = qv p.t2 →
      ∀ y : ℚ, 0 ≤ y → y ≤ qv p.t1 →
        (makeWidthFn SectionType.TSection p).bfn y = qv p.b1 + qv p.b2) ∧
    (∀ (ri₁ ri₂ M P d : JSNum) (n : ℕ),
      computeCurvedBeam
        { shape := SectionType.TSection, ri := ri₁, M := M, P := P, d := d,
          params := p, samples := n } =
      computeCurvedBeam
        { shape := SectionType.TSection, ri := ri₂, M := M, P := P, d := d,
          params := p, samples := n }) ∧
    (∀ (M P d : JSNum) (n : ℕ),
      computeCurvedBeam
        { shape := SectionType.TSection, ri := .nan, M := M, P := P, d := d,
          params := p, samples := n } ≠ .fail riMsg) := by
  obtain ⟨hR1, ht1, hb1, hR2, ht2, hb2⟩ := (validate_tsect_iff p).mp hval
  obtain ⟨q1, hq1, hq1p⟩ := hR1
  obtain ⟨s1, hs1, hs1p⟩ := ht1
  obtain ⟨q2, hq2, hq2p⟩ := hR2
  obtain ⟨s2, hs2, hs2p⟩ := ht2
  have hmin : (jmin (getNum p.R1) (getNum p.R2)).toQ = min (qv p.R1) (qv p.R2) := by
    rw [hq1, hq2, jmin_num]
    simp [qv, hq1, hq2, JSNum.toQ]
  have hbfn : ∀ y : ℚ,
      (makeWidthFn SectionType.TSection p).bfn y =
        (if qv p.R1 ≤ min (qv p.R1) (qv p.R2) + y ∧
            min (qv p.R1) (qv p.R2) + y ≤ qv p.R1 + qv p.t1
         then qv p.b1 else 0) +
        (if qv p.R2 ≤ min (qv p.R1) (qv p.R2) + y ∧
            min (qv p.R1) (qv p.R2) + y ≤ qv p.R2 + qv p.t2
         then qv p.b2 else 0) := by
    intro y
    rw [makeWidthFn_tsect]
    dsimp only
    rw [hmin]
  have hriov : (makeWidthFn SectionType.TSection p).riOverride =
      .num (min (qv p.R1) (qv p.R2)) := by
    rw [makeWidthFn_tsect]
    dsimp only
    rw [hq1, hq2, jmin_num]
    simp [qv, hq1, hq2, JSNum.toQ]
  have hroov : (makeWidthFn SectionType.TSection p).roOverride =
      .num (max (qv p.R1 + qv p.t1) (qv p.R2 + qv p.t2)) := by
    rw [makeWidthFn_tsect]
    dsimp only
    rw [hq1, hq2, hs1, hs2, jadd_num, jadd_num, jmax_num]
    simp [qv, hq1, hq2, hs1, hs2, JSNum.toQ]
  have htov : (makeWidthFn SectionType.TSection p).t =
      .num (max (qv p.R1 + qv p.t1) (qv p.R2 + qv p.t2) - min (qv p.R1) (qv p.R2)) := by
    rw [makeWidthFn_tsect]
    dsimp only
    rw [hq1, hq2, hs1, hs2, jadd_num, jadd_num, jmax_num, jmin_num, jsub_num]
    simp [qv, hq1, hq2, hs1, hs2, JSNum.toQ]
  have hovfin : (makeWidthFn SectionType.TSection p).riOverride.isFinite = true := by
    rw [hriov]
    rfl
  refine ⟨hbfn, hriov, hroov, htov, ?_, ?_, ?_⟩
  · intro hRR hTT y hy0 hyt
    have hc1 : qv p.R1 ≤ min (qv p.R1) (qv p.R2) + y ∧
        min (qv p.R1) (qv p.R2) + y ≤ qv p.R1 + qv p.t1 := by
      rw [← hRR, min_self]
      constructor <;> linarith
    have hc2 : qv p.R2 ≤ min (qv p.R1) (qv p.R2) + y ∧
        min (qv p.R1) (qv p.R2) + y ≤ qv p.R2 + qv p.t2 := by
      rw [← hRR, min_self, ← hTT]
      constructor <;> linarith
    rw [hbfn y, if_pos hc1, if_pos hc2]
  · intro ri₁ ri₂ M P d n
    exact compute_ri_irrelevant SectionType.TSection ri₁ ri₂ M P d p n hovfin
  · intro M P d n h
    unfold computeCurvedBeam at h
    split at h
    · next m hv =>
      rw [hval] at hv
      exact Valid.noConfusion hv
    · have heq : effRi { shape := SectionType.TSection, ri := .nan, M := M, P := P,
                         d := d, params := p, samples := n } =
          .num (min (qv p.R1) (qv p.R2)) := by
        unfold effRi
        dsimp only
        rw [if_pos hovfin, hriov]
      have hri : ((effRi { shape := SectionType.TSection, ri := .nan, M := M, P := P,
                           d := d, params := p, samples := n }).isFinite &&
          (effRi { shape := SectionType.TSection, ri := .nan, M := M, P := P,
                   d := d, params := p, samples := n }).gtZero) = true := by
        rw [heq]
        have hpos : 0 < min (qv p.R1) (qv p.R2) := by
          have e1 : qv p.R1 = q1 := by simp [qv, hq1, JSNum.toQ]
          have e2 : qv p.R2 = q2 := by simp [qv, hq2, JSNum.toQ]
          rw [e1, e2]
          exact lt_min hq1p hq2p
        simp [JSNum.isFinite, JSNum.gtZero, hpos]
      by_cases h1 : (makeWidthFn SectionType.TSection p).t.gtZero = true
      · rw [if_pos h1, if_pos hri] at h
        by_cases hm : (resolveMoment { shape := SectionType.TSection, ri := .nan, M := M,
                                       P := P, d := d, params := p,
                                       samples := n }).isFinite = true
        · rw [if_pos hm] at h
          rcases solve_fail_elim _ _ _ _ _ _ _ h with h' | h'
          · exact absurd h' (by decide)
          · exact absurd h' (by decide)
        · rw [if_neg hm] at h
          injection h with h'
          exact absurd h' (by decide)
      · rw [if_neg h1] at h
        injection h with h'
        exact absurd h' (by decide)

/-- Two identical fully overlapping unit rectangles. -/
def tsectP : Params :=
  { R1 := some (.num 1), t1 := some (.num 1), b1 := some (.num 1),
    R2 := some (.num 1), t2 := some (.num 1), b2 := some (.num 1) }

/-- Witness for C6: overlapping unit rectangles sum their widths, the
inner override is `min(R1, R2)`, and a caller-supplied `ri` does not
change the outcome relative to an absent one. -/
theorem c6_tsection_profile_witness :
    validateParams SectionType.TSection tsectP = .ok ∧
    (makeWidthFn SectionType.TSection tsectP).riOverride =
      .num (min (qv tsectP.R1) (qv tsectP.R2)) ∧
    (makeWidthFn SectionType.TSection tsectP).bfn (1/2) =
      qv tsectP.b1 + qv tsectP.b2 ∧
    computeCurvedBeam { shape := SectionType.TSection, ri := .num 5, M := .num 1000,
                        P := .nan, d := .nan, params := tsectP, samples := 3 } =
      computeCurvedBeam { shape := SectionType.TSection, ri := .nan, M := .num 1000,
                          P := .nan, d := .nan, params := tsectP, samples := 3 } := by
  have hval : validateParams SectionType.TSection tsectP = .ok := by decide
  have h := c6_tsection_profile tsectP hval
  refine ⟨hval, h.2.1, ?_, ?_⟩
  · apply h.2.2.2.2.1 rfl rfl (1/2) (by norm_num)
    show (1 : ℚ)/2 ≤ qv tsectP.t1
    norm_num [qv, getNum, JSNum.toQ, tsectP]
  · exact h.2.2.2.2.2.1 (.num 5) .nan (.num 1000) .nan .nan 3
